import Mathlib

/-! The byne-serve dashboard: a shallow embedding of its client-side logic.

The dashboard is a React single-page application.  The parts of it that carry
logic are embedded here as pure Lean functions:

* `formatChartData` (components/Models/ModelDetails.js),
* `filteredReports` and `fetchReports` (components/Reports/ReportBrowser.js),
* the axios client with its two interceptors (services/api.js),
* the plain-axios authentication calls and `setAuthToken` (services/auth.js),
* `loadUser`, `login`, `logout`, `checkAuthStatus` (context/AuthContext.js),
* `fetchModels`, `handleDeleteConfirm` (components/Models/ModelList.js),
* `fetchModel`, `handleUpdate`, `handleDelete` (components/Models/ModelDetails.js),
* the route table and the render function of `App` (App.js).

JavaScript strings are sequences of UTF-16 code units, and every comparison the
code performs on them (`===`, `Array.prototype.sort` without a comparator,
`String.prototype.includes`) is defined on code units, so a string is modelled
as the list of its code units.  React state is modelled by explicit state
passing: a handler maps the state it closes over to the state after all of its
setters have been applied.  The network is an input: every request takes the
outcome the transport produces for it.
-/

set_option autoImplicit false

namespace ByneServe

/-! ## JavaScript strings -/

/-- A JavaScript string: the list of its UTF-16 code units. -/
abbrev JSString := List Nat

/-- The code units of a string literal (UTF-16 encoding, surrogate pairs above the BMP). -/
def utf16 (s : String) : JSString :=
  s.toList.flatMap fun c =>
    if c.toNat < 65536 then [c.toNat]
    else [55296 + (c.toNat - 65536) / 1024, 56320 + (c.toNat - 65536) % 1024]

/-- ECMAScript `IsLessThan` on two strings: `false` when `y` is a prefix of `x`, `true` when
`x` is a proper prefix of `y`, otherwise the comparison of the first differing code unit. -/
def strLt : JSString → JSString → Bool
  | _, [] => false
  | [], _ :: _ => true
  | a :: x, b :: y => if a < b then true else if b < a then false else strLt x y

/-- ECMAScript `SortCompare` for two strings when `sort` is called without a comparator. -/
def sortCompare (x y : JSString) : Int :=
  if strLt x y then -1 else if strLt y x then 1 else 0

/-- The order `Array.prototype.sort()` sorts by: `x` may stand before `y`. -/
def sortLe (x y : JSString) : Prop := sortCompare x y ≤ 0

instance : DecidableRel sortLe := fun x y => inferInstanceAs (Decidable (sortCompare x y ≤ 0))

/-- `Array.prototype.sort()` without a comparator, on an array of strings: a stable sort by
`sortCompare`. -/
def arraySort (xs : List JSString) : List JSString := List.insertionSort sortLe xs

/-- `Set.prototype.add` on a set kept in insertion order: an element already present
(SameValueZero, which on strings is equality of code units) is not added again. -/
def setAdd (s : List JSString) (x : JSString) : List JSString :=
  if x ∈ s then s else s ++ [x]

/-! ## Plain objects with string keys -/

/-- The values `formatChartData` stores in a chart record. -/
inductive JSVal where
  | str (s : JSString)
  | num (n : Int)
  deriving DecidableEq, Repr

/-- A plain object: its own properties in creation order. -/
abbrev JSObject := List (JSString × JSVal)

/-- The property name with an inherited setter on `Object.prototype`. -/
def keyProto : JSString := utf16 "__proto__"

def keyDate : JSString := utf16 "date"

/-- Own property lookup. -/
def getField (o : JSObject) (k : JSString) : Option JSVal :=
  match o with
  | [] => none
  | (k', v) :: rest => if k' = k then some v else getField rest k

/-- Replace the value of an existing own property, or create the property at the end. -/
def putField (o : JSObject) (k : JSString) (v : JSVal) : JSObject :=
  match o with
  | [] => [(k, v)]
  | (k', v') :: rest => if k' = k then (k', v) :: rest else (k', v') :: putField rest k v

/-- The assignment `o[k] = v` on an object created by an object literal, for `v` a string or
a number.  For `k = "__proto__"` the assignment runs the setter inherited from
`Object.prototype`, which ignores a value that is neither an object nor null: no own property
is created. -/
def setField (o : JSObject) (k : JSString) (v : JSVal) : JSObject :=
  if k = keyProto then o else putField o k v

/-! ## Chart data (components/Models/ModelDetails.js) -/

/-- A MethodHistoryPoint. -/
structure HistoryItem where
  date : JSString
  count : Int
  deriving DecidableEq, Repr

/-- One element of the `methodHistory` array. -/
structure MethodHistory where
  method : JSString
  history : List HistoryItem
  deriving DecidableEq, Repr

/-- The `reduce` of `formatChartData`: every date of every history is added to one set. -/
def allDates (data : List MethodHistory) : List JSString :=
  data.foldl (fun dates method => method.history.foldl (fun ds item => setAdd ds item.date) dates) []

/-- The array `sortedDates`. -/
def sortedDates (data : List MethodHistory) : List JSString :=
  arraySort (allDates data)

/-- The body of the `map` callback: the record built for one date. -/
def dataPoint (data : List MethodHistory) (date : JSString) : JSObject :=
  data.foldl
    (fun dp method =>
      let historyItem := method.history.find? (fun item => decide (item.date = date))
      setField dp method.method
        (match historyItem with
         | some item => JSVal.num item.count
         | none => JSVal.num 0))
    [(keyDate, JSVal.str date)]

def formatChartData (data : List MethodHistory) : List JSObject :=
  (sortedDates data).map (dataPoint data)

/-! ## Report filtering (components/Reports/ReportBrowser.js) -/

/-- ECMAScript `StringIndexOf(string, searchValue, fromIndex)`, where `string` is what is left
of the subject from position `fromIndex` on: the first index at which `searchValue` occurs, or
`none` for -1. -/
def stringIndexOf (searchValue : JSString) : JSString → Nat → Option Nat
  | [], fromIndex => if searchValue = [] then some fromIndex else none
  | c :: rest, fromIndex =>
    if searchValue.isPrefixOf (c :: rest) then some fromIndex
    else stringIndexOf searchValue rest (fromIndex + 1)

/-- `String.prototype.includes(searchString)`. -/
def includes (s searchString : JSString) : Bool :=
  (stringIndexOf searchString s 0).isSome

/-- A report as the reports endpoint returns it.  The environment information is only
rendered and is left out. -/
structure Report where
  id : JSString
  method : JSString
  machine_id : JSString
  status : JSString
  timestamp : JSString
  error : Option JSString
  traceback : Option JSString
  deriving DecidableEq, Repr

/-- The constant `filteredReports` of the component, as a function of the state it is computed
from.  `toLowerCase` is `String.prototype.toLowerCase`, the Unicode lower-casing of the
JavaScript engine, taken as given. -/
def filteredReports (toLowerCase : JSString → JSString) (reports : List Report)
    (filter statusFilter : JSString) : List Report :=
  reports.filter fun report =>
    let matchesText :=
      includes (toLowerCase report.method) (toLowerCase filter) ||
      includes (toLowerCase report.machine_id) (toLowerCase filter)
    let matchesStatus := decide (statusFilter = utf16 "all") || decide (report.status = statusFilter)
    matchesText && matchesStatus

/-- Lower-casing restricted to the letters A to Z, with which JavaScript's `toLowerCase` agrees
on ASCII strings; used to evaluate examples. -/
def asciiToLowerCase (s : JSString) : JSString :=
  s.map fun c => if 65 ≤ c ∧ c ≤ 90 then c + 32 else c

/-! ## JavaScript numbers: the integer fragment

A JavaScript number is a double.  Page numbers, page sizes and offsets are integers, and the
differences and products of integer-valued doubles are again integer-valued doubles (or an
infinity, or NaN), each operation rounding the exact result to the nearest double.  That
fragment is modelled here exactly, on integers. -/

/-- A JavaScript number whose value is an integer, or an infinity, or NaN.  The value of
`int n` is a double (see `JSNumber.ofInt`); the two zeros, which print alike, are both
`int 0`. -/
inductive JSNumber where
  | int (n : Int)
  | infinity (negative : Bool)
  | nan
  deriving DecidableEq, Repr

/-- The least `e`, counted up from the one given, with `v / 2 ^ e < 2 ^ 53`. -/
def ulpExponent : Nat → Nat → Nat → Nat
  | 0, _, e => e
  | fuel + 1, v, e => if v / 2 ^ e < 2 ^ 53 then e else ulpExponent fuel v (e + 1)

/-- The number `2 ^ 1024`, the least power of two that is too large for a double. -/
def doubleLimit : Nat :=
  179769313486231590772930519078902473361797697894230657273430081157732675805500963132708477322407536021120113879871393357658789768814416622492847430639474124377767893424865485276302219601246094119453082952085005768838150682342462881473913110540827237163350510684586298239947245938479716304835356329624224137216

/-- Round a natural number to the nearest double, ties to the even significand; `none` when
the result is too large for a double and becomes an infinity. -/
def roundDouble (v : Nat) : Option Nat :=
  if v ≤ 2 ^ 53 then some v
  else
    let e := ulpExponent 1100 v 0
    let q := v / 2 ^ e
    let rest := v % 2 ^ e
    let q := if 2 ^ e < 2 * rest ∨ (2 * rest = 2 ^ e ∧ q % 2 = 1) then q + 1 else q
    if q * 2 ^ e < doubleLimit then some (q * 2 ^ e) else none

/-- The number that an integer denotes: the nearest double. -/
def JSNumber.ofInt (n : Int) : JSNumber :=
  match roundDouble n.natAbs with
  | some v => JSNumber.int (if n < 0 then -(v : Int) else (v : Int))
  | none => JSNumber.infinity (decide (n < 0))

/-- The operator `-` on two numbers. -/
def JSNumber.sub : JSNumber → JSNumber → JSNumber
  | JSNumber.int a, JSNumber.int b => JSNumber.ofInt (a - b)
  | JSNumber.nan, _ => JSNumber.nan
  | _, JSNumber.nan => JSNumber.nan
  | JSNumber.infinity s, JSNumber.int _ => JSNumber.infinity s
  | JSNumber.int _, JSNumber.infinity s => JSNumber.infinity (!s)
  | JSNumber.infinity s, JSNumber.infinity s' =>
    if s = s' then JSNumber.nan else JSNumber.infinity s

/-- The operator `*` on two numbers. -/
def JSNumber.mul : JSNumber → JSNumber → JSNumber
  | JSNumber.int a, JSNumber.int b => JSNumber.ofInt (a * b)
  | JSNumber.nan, _ => JSNumber.nan
  | _, JSNumber.nan => JSNumber.nan
  | JSNumber.infinity s, JSNumber.int b =>
    if b = 0 then JSNumber.nan else JSNumber.infinity (xor s (decide (b < 0)))
  | JSNumber.int a, JSNumber.infinity s =>
    if a = 0 then JSNumber.nan else JSNumber.infinity (xor s (decide (a < 0)))
  | JSNumber.infinity s, JSNumber.infinity s' => JSNumber.infinity (xor s s')

/-- The decimal digits of a natural number. -/
def decimalDigits (x : Nat) : JSString := utf16 (toString x)

/-- The candidates with `k` digits for the digits of the double `x`: pairs `(s, n)` with
`10 ^ (k - 1) ≤ s < 10 ^ k` such that `s * 10 ^ (n - k)` rounds to `x`, among the two multiples
of `10 ^ (n - k)` next to `x`. -/
def digitCandidates (x k : Nat) : List (Nat × Nat) :=
  let len := (decimalDigits x).length
  ([len, len + 1].flatMap fun n =>
      if k ≤ n then [(x / 10 ^ (n - k), n), (x / 10 ^ (n - k) + 1, n)] else []).filter
    fun c => decide (10 ^ (k - 1) ≤ c.1) && decide (c.1 < 10 ^ k) &&
      decide (roundDouble (c.1 * 10 ^ (c.2 - k)) = some x)

/-- Of two candidates with `k` digits, the one whose value is closer to `x`; of two equally
close ones, the one with even `s`. -/
def closerCandidate (x k : Nat) (c c' : Nat × Nat) : Nat × Nat :=
  let dist := fun (c : Nat × Nat) => ((c.1 * 10 ^ (c.2 - k) : Nat) : Int) - (x : Int)
  if (dist c).natAbs < (dist c').natAbs then c
  else if (dist c').natAbs < (dist c).natAbs then c'
  else if c.1 % 2 = 0 then c else c'

/-- The digits `s`, their number `k` and the exponent `n` that `Number::toString` chooses
for the double `x`: the least `k` for which a candidate exists, and the closest candidate. -/
def shortestDigits (x : Nat) : Nat × Nat × Nat :=
  match ((List.range 17).map fun i => i + 1).findSome? fun k =>
      match digitCandidates x k with
      | [] => none
      | c :: cs => some (k, cs.foldl (closerCandidate x k) c) with
  | some (k, s, n) => (s, k, n)
  | none => (x, (decimalDigits x).length, (decimalDigits x).length)

/-- The abstract operation `Number::toString` in radix 10 on a positive integer-valued double:
up to `2 ^ 53` the digits of the integer; above, the shortest digits that round to the number,
padded with zeros up to 21 digits and in exponent form from there on. -/
def natToString (x : Nat) : JSString :=
  if x ≤ 2 ^ 53 then decimalDigits x
  else
    match shortestDigits x with
    | (s, k, n) =>
      if n ≤ 21 then decimalDigits s ++ List.replicate (n - k) 48
      else if k = 1 then decimalDigits s ++ utf16 "e+" ++ decimalDigits (n - 1)
      else (decimalDigits s).take 1 ++ utf16 "." ++ (decimalDigits s).drop 1 ++ utf16 "e+"
        ++ decimalDigits (n - 1)

/-- The method `Number.prototype.toString`, without a radix. -/
def numberToString : JSNumber → JSString
  | JSNumber.nan => utf16 "NaN"
  | JSNumber.infinity false => utf16 "Infinity"
  | JSNumber.infinity true => utf16 "-Infinity"
  | JSNumber.int n => if n < 0 then 45 :: natToString n.natAbs else natToString n.natAbs

/-- The decimal numeral of an integer. -/
def decimal (n : Int) : JSString := utf16 (toString n)

/-! ## Browser environment -/

/-- A string-keyed store of strings: `localStorage`, or a header map. -/
abbrev Store := List (JSString × JSString)

/-- The methods `getItem`, or reading a header: `none` is `null`. -/
def Store.getItem (st : Store) (k : JSString) : Option JSString :=
  match st with
  | [] => none
  | (k', v) :: rest => if k' = k then some v else Store.getItem rest k

/-- The method `removeItem`, or `delete` on a header map. -/
def Store.removeItem (st : Store) (k : JSString) : Store :=
  st.filter fun p => decide (p.1 ≠ k)

/-- The method `setItem`, or assignment to a header. -/
def Store.setItem (st : Store) (k v : JSString) : Store :=
  match st with
  | [] => [(k, v)]
  | (k', v') :: rest => if k' = k then (k', v) :: rest else (k', v') :: Store.setItem rest k v

def keyToken : JSString := utf16 "token"

def keyAuthorization : JSString := utf16 "Authorization"

/-- The template literal that builds the value of the Authorization header. -/
def bearer (token : JSString) : JSString := utf16 "Bearer " ++ token

/-- JavaScript truthiness of a value that is a string or `null`. -/
def truthy : Option JSString → Bool
  | some (_ :: _) => true
  | _ => false

/-- An axios request configuration. -/
structure RequestConfig where
  method : JSString
  baseURL : JSString
  url : JSString
  headers : Store
  params : Store
  data : Store
  deriving DecidableEq, Repr

/-- The `response` member of an error. -/
structure ErrorResponse where
  status : Nat
  deriving DecidableEq, Repr

/-- A rejected request or a thrown `Error`: `response` is absent when no response was received
(network failure) and for errors thrown by the client itself. -/
structure JSError where
  message : JSString
  response : Option ErrorResponse
  deriving DecidableEq, Repr

/-- A response that resolves the request. -/
structure Response (δ : Type) where
  status : Nat
  data : δ

/-- What the network answers to the request that is sent. -/
abbrev Transport (δ : Type) := RequestConfig → Except JSError (Response δ)

/-- The part of the browser the client code reads and writes. -/
structure Browser where
  /-- The storage object `localStorage`. -/
  localStorage : Store
  /-- Types of the events dispatched on `window`, oldest first. -/
  events : List JSString
  /-- The header map `axios.defaults.headers.common`. -/
  defaultHeaders : Store
  /-- The environment variable `process.env.REACT_APP_API_URL`. -/
  apiUrlEnv : Option JSString
  /-- The requests handed to the network, oldest first. -/
  sent : List RequestConfig
  deriving DecidableEq, Repr

/-- The constant `API_URL` of both service modules. -/
def API_URL (b : Browser) : JSString :=
  if truthy b.apiUrlEnv then b.apiUrlEnv.getD [] else utf16 "http://localhost:8000"

/-! ## The api client (services/api.js) -/

/-- The fulfilled handler of `api.interceptors.request`. -/
def requestInterceptor (b : Browser) (config : RequestConfig) : RequestConfig :=
  let token := b.localStorage.getItem keyToken
  if truthy token then
    { config with headers := config.headers.setItem keyAuthorization (bearer (token.getD [])) }
  else config

/-- The rejected handler of `api.interceptors.response`: the browser it leaves and the
settlement of the call, which is always a rejection with the error it was given. -/
def responseErrorInterceptor {δ : Type} (error : JSError) (b : Browser) :
    Browser × Except JSError δ :=
  match error.response with
  | some response =>
    if response.status = 401 then
      ({ b with
          localStorage := b.localStorage.removeItem keyToken
          events := b.events ++ [utf16 "storage"] },
       Except.error error)
    else (b, Except.error error)
  | none => (b, Except.error error)

/-- A request through the instance `api`: the request interceptor, the network, then the
response interceptors (the fulfilled one is the identity). -/
def apiRequest {δ : Type} (t : Transport δ) (config : RequestConfig) (b : Browser) :
    Browser × Except JSError (Response δ) :=
  let config := requestInterceptor b { config with baseURL := API_URL b }
  let b := { b with sent := b.sent ++ [config] }
  match t config with
  | Except.ok response => (b, Except.ok response)
  | Except.error error => responseErrorInterceptor error b

/-- A request through the global `axios`, on which no interceptor is registered: the default
headers are merged under the headers of the request, and the outcome is passed on as is. -/
def axiosRequest {δ : Type} (t : Transport δ) (config : RequestConfig) (b : Browser) :
    Browser × Except JSError (Response δ) :=
  let config :=
    { config with
        headers := config.headers.foldl (fun hs p => hs.setItem p.1 p.2) b.defaultHeaders }
  ({ b with sent := b.sent ++ [config] }, t config)

/-- The statement `return response.data` after an awaited request. -/
def responseData {δ : Type} (r : Browser × Except JSError (Response δ)) :
    Browser × Except JSError δ :=
  (r.1, r.2.map fun response => response.data)

/-- A request configuration with only method and url set. -/
def request (method url : JSString) : RequestConfig :=
  { method := method, baseURL := [], url := url, headers := [], params := [], data := [] }

def getModels {δ : Type} (t : Transport δ) (b : Browser) : Browser × Except JSError δ :=
  responseData (apiRequest t (request (utf16 "get") (utf16 "/models")) b)

def createModel {δ : Type} (modelData : Store) (t : Transport δ) (b : Browser) :
    Browser × Except JSError δ :=
  responseData (apiRequest t { request (utf16 "post") (utf16 "/models") with data := modelData } b)

def getModel {δ : Type} (name : JSString) (t : Transport δ) (b : Browser) :
    Browser × Except JSError δ :=
  responseData (apiRequest t (request (utf16 "get") (utf16 "/models/" ++ name)) b)

def updateModel {δ : Type} (name : JSString) (modelData : Store) (t : Transport δ) (b : Browser) :
    Browser × Except JSError δ :=
  responseData
    (apiRequest t { request (utf16 "put") (utf16 "/models/" ++ name) with data := modelData } b)

def deleteModel {δ : Type} (name : JSString) (t : Transport δ) (b : Browser) :
    Browser × Except JSError δ :=
  responseData (apiRequest t (request (utf16 "delete") (utf16 "/models/" ++ name)) b)

def getUniqueUsers {δ : Type} (modelName : JSString) (t : Transport δ) (b : Browser) :
    Browser × Except JSError δ :=
  responseData
    (apiRequest t (request (utf16 "get") (utf16 "/models/" ++ modelName ++ utf16 "/unique_users")) b)

/-- The call `getMethodHistory`; a date argument is given by its ISO string, `none` when it is
null. -/
def getMethodHistory {δ : Type} (modelName : JSString) (startDate endDate : Option JSString)
    (t : Transport δ) (b : Browser) : Browser × Except JSError δ :=
  let params : Store := []
  let params := match startDate with
    | some iso => params ++ [(utf16 "start_date", iso)]
    | none => params
  let params := match endDate with
    | some iso => params ++ [(utf16 "end_date", iso)]
    | none => params
  responseData
    (apiRequest t
      { request (utf16 "get") (utf16 "/models/" ++ modelName ++ utf16 "/history") with
          params := params } b)

/-- The constant `skip` of `getReports`: `(page-1) * limit`.  An integer argument stands for
the number it denotes, the nearest double. -/
def reportsSkip (page limit : Int) : JSNumber :=
  JSNumber.mul (JSNumber.sub (JSNumber.ofInt page) (JSNumber.int 1)) (JSNumber.ofInt limit)

/-- The call `getReports` with both optional arguments given (their defaults are 1 and 10). -/
def getReports {δ : Type} (name : JSString) (page limit : Int) (t : Transport δ) (b : Browser) :
    Browser × Except JSError δ :=
  let skip := reportsSkip page limit
  let params : Store :=
    [(utf16 "skip", numberToString skip), (utf16 "limit", numberToString (JSNumber.ofInt limit))]
  match apiRequest t { request (utf16 "get") (utf16 "/reports/" ++ name) with params := params } b with
  | (b, Except.ok response) =>
    if response.status ≠ 200 then
      (b, Except.error { message := utf16 "Failed to fetch reports", response := none })
    else (b, Except.ok response.data)
  | (b, Except.error error) => (b, Except.error error)

def deleteReport {δ : Type} (reportId : JSString) (t : Transport δ) (b : Browser) :
    Browser × Except JSError δ :=
  responseData (apiRequest t (request (utf16 "delete") (utf16 "/reports/" ++ reportId)) b)

/-! ## The authentication calls (services/auth.js) -/

def loginUser {δ : Type} (username password : JSString) (t : Transport δ) (b : Browser) :
    Browser × Except JSError δ :=
  responseData
    (axiosRequest t
      { request (utf16 "post") (API_URL b ++ utf16 "/auth/token/") with
          data := [(utf16 "username", username), (utf16 "password", password)]
          headers := [(utf16 "Content-Type", utf16 "application/x-www-form-urlencoded")] } b)

def registerUser {δ : Type} (username email password : JSString) (t : Transport δ) (b : Browser) :
    Browser × Except JSError δ :=
  responseData
    (axiosRequest t
      { request (utf16 "post") (API_URL b ++ utf16 "/auth/register/") with
          data := [(utf16 "username", username), (utf16 "email", email),
            (utf16 "password", password)] } b)

def getCurrentUser {δ : Type} (token : JSString) (t : Transport δ) (b : Browser) :
    Browser × Except JSError δ :=
  responseData
    (axiosRequest t
      { request (utf16 "get") (API_URL b ++ utf16 "/auth/users/me/") with
          headers := [(keyAuthorization, bearer token)] } b)

def setAuthToken (token : Option JSString) (b : Browser) : Browser :=
  if truthy token then
    { b with defaultHeaders := b.defaultHeaders.setItem keyAuthorization (bearer (token.getD [])) }
  else
    { b with defaultHeaders := b.defaultHeaders.removeItem keyAuthorization }

/-- Every call the client can make: one constructor for each request function exported by
services/api.js and services/auth.js, with its arguments. -/
inductive ClientCall where
  | getModels
  | createModel (modelData : Store)
  | getModel (name : JSString)
  | updateModel (name : JSString) (modelData : Store)
  | deleteModel (name : JSString)
  | getUniqueUsers (modelName : JSString)
  | getMethodHistory (modelName : JSString) (startDate endDate : Option JSString)
  | getReports (name : JSString) (page limit : Int)
  | deleteReport (reportId : JSString)
  | loginUser (username password : JSString)
  | registerUser (username email password : JSString)
  | getCurrentUser (token : JSString)
  deriving DecidableEq, Repr

/-- Make the call. -/
def ClientCall.run {δ : Type} (c : ClientCall) (t : Transport δ) (b : Browser) :
    Browser × Except JSError δ :=
  match c with
  | .getModels => ByneServe.getModels t b
  | .createModel modelData => ByneServe.createModel modelData t b
  | .getModel name => ByneServe.getModel name t b
  | .updateModel name modelData => ByneServe.updateModel name modelData t b
  | .deleteModel name => ByneServe.deleteModel name t b
  | .getUniqueUsers modelName => ByneServe.getUniqueUsers modelName t b
  | .getMethodHistory modelName startDate endDate =>
    ByneServe.getMethodHistory modelName startDate endDate t b
  | .getReports name page limit => ByneServe.getReports name page limit t b
  | .deleteReport reportId => ByneServe.deleteReport reportId t b
  | .loginUser username password => ByneServe.loginUser username password t b
  | .registerUser username email password => ByneServe.registerUser username email password t b
  | .getCurrentUser token => ByneServe.getCurrentUser token t b

/-- The calls defined in services/auth.js, which use the global `axios`. -/
def ClientCall.isAuthCall : ClientCall → Bool
  | .loginUser _ _ => true
  | .registerUser _ _ _ => true
  | .getCurrentUser _ => true
  | _ => false

/-! ## The authentication context (context/AuthContext.js) -/

/-- The current user as `GET /auth/users/me/` returns it. -/
structure User where
  username : JSString
  email : JSString
  deriving DecidableEq, Repr

/-- The four state variables of `AuthProvider`. -/
structure AuthState where
  user : Option User
  isAuthenticated : Bool
  loading : Bool
  token : Option JSString
  deriving DecidableEq, Repr

/-- The provider state together with the browser it runs in. -/
structure AuthWorld where
  auth : AuthState
  browser : Browser
  deriving DecidableEq, Repr

/-- The state of `AuthProvider` on its first render: `token` is initialised from local
storage. -/
def initialAuthState (b : Browser) : AuthState :=
  { user := none, isAuthenticated := false, loading := true,
    token := b.localStorage.getItem keyToken }

/-- The callback `loadUser`; `t` answers the current-user request if one is made.  Logging to
the console is left out. -/
def loadUser (authToken : Option JSString) (t : Transport User) (w : AuthWorld) : AuthWorld :=
  if ¬ truthy authToken then
    { w with auth := { w.auth with isAuthenticated := false, user := none, loading := false } }
  else
    -- try
    let b := setAuthToken authToken w.browser
    match getCurrentUser (authToken.getD []) t b with
    | (b, Except.ok userData) =>
      -- finally
      { auth := { w.auth with user := some userData, isAuthenticated := true, loading := false },
        browser := b }
    | (b, Except.error _) =>
      -- catch, then finally
      { auth := { w.auth with isAuthenticated := false, user := none, token := none,
                              loading := false },
        browser := { b with localStorage := b.localStorage.removeItem keyToken } }

/-- The first effect of `AuthProvider`, run on load: `loadUser(token)` from the initial
state. -/
def mountAuthProvider (t : Transport User) (b : Browser) : AuthWorld :=
  loadUser (initialAuthState b).token t { auth := initialAuthState b, browser := b }

/-- The callback `logout`. -/
def logout (w : AuthWorld) : AuthWorld :=
  { auth := { w.auth with user := none, isAuthenticated := false, token := none },
    browser := setAuthToken none
      { w.browser with localStorage := w.browser.localStorage.removeItem keyToken } }

/-- The callback `checkAuthStatus`, which the listener of the `storage` event calls. -/
def checkAuthStatus (t : Transport User) (w : AuthWorld) : AuthWorld :=
  let storedToken := w.browser.localStorage.getItem keyToken
  if truthy storedToken ∧ storedToken ≠ w.auth.token then
    loadUser storedToken t { w with auth := { w.auth with token := storedToken } }
  else if ¬ truthy storedToken then
    logout w
  else w

/-! ## View state and handlers -/

/-- The computations of an async handler: they update the state of the view, and may throw. -/
abbrev Handler (σ : Type) := ExceptT JSError (StateM σ)

/-- Run a handler from a state: how it completes (normally, or with the exception that
escapes it) and the state it leaves. -/
def Handler.runFrom {σ α : Type} (h : Handler σ α) (s : σ) : Except JSError α × σ :=
  (ExceptT.run h).run s

/-- The statement `await call(...)` for a call that settles as `r`. -/
def await {σ α : Type} (r : Except JSError α) : Handler σ α :=
  match r with
  | Except.ok a => pure a
  | Except.error e => throw e

/-- A model as the models endpoints return it. -/
structure Model where
  name : JSString
  created_at : JSString
  deriving DecidableEq, Repr

/-- The state variables of `ModelList`. -/
structure ModelListState where
  models : List Model
  error : JSString
  loading : Bool
  openDeleteDialog : Bool
  modelToDelete : Option Model
  deriving DecidableEq, Repr

/-- The handler `fetchModels` of `ModelList`; `getModels` is how the call settles.  Logging to
the console is left out. -/
def fetchModels (getModels : Except JSError (List Model)) : Handler ModelListState Unit := do
  modify fun s => { s with loading := true }
  try
    let data ← await getModels
    modify fun s => { s with models := data }
  catch _ =>
    modify fun s => { s with error := utf16 "Failed to fetch models" }
  finally
    modify fun s => { s with loading := false }

/-- The state variables of `ModelDetails`; a date is given by its ISO string. -/
structure ModelDetailsState where
  model : Option Model
  editing : Bool
  loading : Bool
  error : JSString
  openDeleteDialog : Bool
  uniqueUsers : Int
  methodHistory : List MethodHistory
  startDate : Option JSString
  endDate : Option JSString
  deriving DecidableEq, Repr

/-- The handler `fetchModel` of `ModelDetails`; the three arguments are how its three calls
settle, each used only if the handler gets to that call. -/
def fetchModel (getModel : Except JSError Model) (getUniqueUsers : Except JSError Int)
    (getMethodHistory : Except JSError (List MethodHistory)) :
    Handler ModelDetailsState Unit := do
  try
    modify fun s => { s with loading := true }
    let data ← await getModel
    modify fun s => { s with model := some data }
    let users ← await getUniqueUsers
    modify fun s => { s with uniqueUsers := users }
    let history ← await getMethodHistory
    modify fun s => { s with methodHistory := history }
    modify fun s => { s with error := [] }
  catch _ =>
    modify fun s => { s with error := utf16 "Failed to fetch model details" }
  finally
    modify fun s => { s with loading := false }

/-- The data of a response of the reports endpoint: an array of reports, or anything else. -/
inductive ReportsPayload where
  | array (reports : List Report)
  | other
  deriving DecidableEq, Repr

/-- The state variables of `ReportBrowser`. -/
structure ReportBrowserState where
  reports : List Report
  loading : Bool
  error : Option JSString
  filter : JSString
  statusFilter : JSString
  page : Int
  hasMore : Bool
  limit : Int
  deriving DecidableEq, Repr

/-- The handler `fetchReports` of `ReportBrowser`; `getReports` is how the call settles. -/
def fetchReports (getReports : Except JSError ReportsPayload) :
    Handler ReportBrowserState Unit := do
  try
    modify fun s => { s with loading := true }
    let response ← await getReports
    let newReports := match response with
      | ReportsPayload.array reports => reports
      | ReportsPayload.other => []
    modify fun s => { s with reports := newReports }
    modify fun s => { s with hasMore := decide ((newReports.length : Int) = s.limit) }
    modify fun s => { s with error := none }
  catch _ =>
    modify fun s => { s with error := some (utf16 "Failed to fetch reports") }
    modify fun s => { s with reports := [] }
    modify fun s => { s with hasMore := false }
  finally
    modify fun s => { s with loading := false }

/-! ## Optional arguments of `getReports` (services/api.js) -/

/-- The call `getReports(name, page, limit)` with either argument possibly omitted
(`none`, for `undefined`): the default parameters `page = 1` and `limit = 10` apply. -/
def getReportsWith {δ : Type} (name : JSString) (page limit : Option Int) (t : Transport δ)
    (b : Browser) : Browser × Except JSError δ :=
  getReports name (page.getD 1) (limit.getD 10) t b

/-- The state a handler leaves when it is run from a state. -/
def Handler.stateAfter {σ α : Type} (h : Handler σ α) (s : σ) : σ :=
  (h.runFrom s).2

/-! ## Pagination of the report browser (components/Reports/ReportBrowser.js) -/

/-- The `count` property given to the `Pagination` control. -/
def paginationCount (s : ReportBrowserState) : Int :=
  s.page + (if s.hasMore then 1 else 0)

/-- The state of `ReportBrowser` on its first render. -/
def reportBrowserInitial : ReportBrowserState :=
  { reports := [], loading := true, error := none, filter := [], statusFilter := utf16 "all",
    page := 1, hasMore := true, limit := 10 }

/-! ## Deleting from the model list (components/Models/ModelList.js) -/

/-- The handler `handleDeleteConfirm` of `ModelList`; `deleteModel` is how the call
`deleteModel(modelToDelete.name)` settles.  With no model selected, reading
`modelToDelete.name` throws inside the `try` block.  Logging to the console is left out. -/
def handleDeleteConfirm (deleteModel : Except JSError Unit) :
    Handler ModelListState Unit := do
  try
    let s ← get
    match s.modelToDelete with
    | none =>
      throw { message := utf16 "Cannot read properties of null (reading 'name')", response := none }
    | some modelToDelete =>
      await deleteModel
      modify fun s' =>
        { s' with models := s.models.filter fun model => decide (model.name ≠ modelToDelete.name) }
      modify fun s' => { s' with openDeleteDialog := false }
  catch _ =>
    modify fun s => { s with error := utf16 "Failed to delete model" }

/-- The handler `handleDeleteClick` of `ModelList`. -/
def handleDeleteClick (model : Model) (s : ModelListState) : ModelListState :=
  { s with modelToDelete := some model, openDeleteDialog := true }

/-! ## Logging in (context/AuthContext.js) -/

/-- The data of a successful token response. -/
structure TokenData where
  access_token : JSString
  token_type : JSString
  deriving DecidableEq, Repr

/-- The statement `localStorage.setItem('token', data.access_token)` of `login`. -/
def storeToken (accessToken : JSString) (b : Browser) : Browser :=
  { b with localStorage := b.localStorage.setItem keyToken accessToken }

/-- The function `login` of `AuthProvider`: the world it leaves and the boolean it returns.
`tLogin` answers the token request and `tUser` the current-user request that `loadUser`
makes.  Logging to the console is left out. -/
def login (username password : JSString) (tLogin : Transport TokenData) (tUser : Transport User)
    (w : AuthWorld) : AuthWorld × Bool :=
  -- try
  match loginUser username password tLogin w.browser with
  | (b, Except.ok data) =>
    let b := storeToken data.access_token b
    let w := { auth := { w.auth with token := some data.access_token }, browser := b }
    let w := loadUser (some data.access_token) tUser w
    (w, true)
  | (b, Except.error _) =>
    -- catch
    ({ w with browser := b }, false)

/-! ## The model-details page (components/Models/ModelDetails.js) -/

/-- The component `ModelDetails` in its surroundings: the route parameter `name` that
`useParams` gives it, its state variables, the browser, and the location of the router. -/
structure ModelDetailsPage where
  name : JSString
  view : ModelDetailsState
  browser : Browser
  location : JSString
  deriving DecidableEq, Repr

/-- A model object as the body of a request. -/
def Model.toData (m : Model) : Store :=
  [(utf16 "name", m.name), (utf16 "created_at", m.created_at)]

/-- The function `navigate` of the router, for an absolute path. -/
def navigate (path : JSString) (p : ModelDetailsPage) : ModelDetailsPage :=
  { p with location := path }

/-- The `onChange` handler of the Model Name text field: `setModel` with a copy of the model
in which `name` is the text typed.  The field is only rendered when a model is loaded. -/
def onModelNameChange (value : JSString) (p : ModelDetailsPage) : ModelDetailsPage :=
  match p.view.model with
  | some model => { p with view := { p.view with model := some { model with name := value } } }
  | none => { p with view := { p.view with model := some { name := value, created_at := [] } } }

/-- The handler `handleUpdate`; `t` answers the request of `updateModel`.  With no model
loaded, reading `model.name` throws inside the `try` block. -/
def handleUpdate (t : Transport Model) (p : ModelDetailsPage) : ModelDetailsPage :=
  -- try
  match p.view.model with
  | none =>
    -- catch
    { p with view := { p.view with error := utf16 "Failed to update model" } }
  | some model =>
    match updateModel model.name model.toData t p.browser with
    | (b, Except.ok updatedModel) =>
      { p with
          browser := b
          view := { p.view with model := some updatedModel, editing := false, error := [] } }
    | (b, Except.error _) =>
      -- catch
      { p with browser := b, view := { p.view with error := utf16 "Failed to update model" } }

/-- The handler `handleDelete`; `t` answers the request of `deleteModel`. -/
def handleDelete (t : Transport Unit) (p : ModelDetailsPage) : ModelDetailsPage :=
  -- try
  match deleteModel p.name t p.browser with
  | (b, Except.ok _) => navigate (utf16 "/models") { p with browser := b }
  | (b, Except.error _) =>
    -- catch
    { p with browser := b, view := { p.view with error := utf16 "Failed to delete model" } }

/-! ## Routing (App.js)

The route table is the one of `App`.  Matching a location against it is done by the router
library; it is modelled here as the library defines it for patterns made of static segments
and `:param` segments, on locations without percent-escapes: a pattern is compiled to a
case-insensitive regular expression that allows trailing slashes, the routes are ranked by
score, and the first route in rank order that matches is rendered. -/

/-- What a route of `App` can have as its element. -/
inductive Element where
  | login
  | register
  | modelList
  | modelForm
  | modelDetails
  | navigate (path : JSString)
  deriving DecidableEq, Repr

/-- A `Route`: its path pattern and its element, which depends on `isAuthenticated`. -/
structure Route where
  path : JSString
  element : Bool → Element

/-- The route with path `/login`. -/
def routeLogin : Route :=
  { path := utf16 "/login",
    element := fun isAuthenticated =>
      if isAuthenticated then Element.navigate (utf16 "/") else Element.login }

/-- The route with path `/register`. -/
def routeRegister : Route :=
  { path := utf16 "/register",
    element := fun isAuthenticated =>
      if isAuthenticated then Element.navigate (utf16 "/") else Element.register }

/-- The route with path `/`. -/
def routeRoot : Route :=
  { path := utf16 "/",
    element := fun isAuthenticated =>
      if isAuthenticated then Element.modelList else Element.navigate (utf16 "/login") }

/-- The route with path `/models/new`. -/
def routeModelNew : Route :=
  { path := utf16 "/models/new",
    element := fun isAuthenticated =>
      if isAuthenticated then Element.modelForm else Element.navigate (utf16 "/login") }

/-- The route with path `/models/:name`. -/
def routeModelDetails : Route :=
  { path := utf16 "/models/:name",
    element := fun isAuthenticated =>
      if isAuthenticated then Element.modelDetails else Element.navigate (utf16 "/login") }

/-- The routes declared in `App`, in order. -/
def appRoutes : List Route :=
  [routeLogin, routeRegister, routeRoot, routeModelNew, routeModelDetails]

/-- The method `String.prototype.split` with the separator `/`. -/
def splitSlash : JSString → List JSString
  | [] => [[]]
  | c :: rest =>
    if c = 47 then [] :: splitSlash rest
    else
      match splitSlash rest with
      | [] => [[c]]
      | s :: ss => (c :: s) :: ss

/-- A character of the class `[\w-]`. -/
def isParamNameChar (c : Nat) : Bool :=
  (48 ≤ c && c ≤ 57) || (65 ≤ c && c ≤ 90) || (97 ≤ c && c ≤ 122) || c = 95 || c = 45

/-- A dynamic segment `:param` of a path pattern. -/
def isParamSegment : JSString → Bool
  | 58 :: c :: rest => (c :: rest).all isParamNameChar
  | _ => false

/-- The score the router gives a route path: the number of pieces the path splits into, plus
10 for a static segment, 3 for a dynamic segment and 1 for an empty piece. -/
def computeScore (path : JSString) : Nat :=
  (splitSlash path).foldl
    (fun score segment =>
      score + (if isParamSegment segment then 3 else if segment = [] then 1 else 10))
    (splitSlash path).length

/-- The routes in rank order: by descending score, routes of equal score in the order in which
they are declared. -/
def rankRoutes (routes : List Route) : List Route :=
  List.insertionSort (fun a b => computeScore b.path ≤ computeScore a.path) routes

/-- Remove the slashes at the end of a string. -/
def stripTrailingSlashes (s : JSString) : JSString :=
  (s.reverse.dropWhile fun c => decide (c = 47)).reverse

/-- Match the segments of a pattern against the segments of a location: a dynamic segment
matches any non-empty segment, a static segment matches the same segment up to the case of the
letters A to Z. -/
def matchSegments : List JSString → List JSString → Bool
  | [], [] => true
  | pattern :: ps, segment :: ss =>
    (if isParamSegment pattern then decide (segment ≠ [])
     else decide (asciiToLowerCase pattern = asciiToLowerCase segment)) && matchSegments ps ss
  | _, _ => false

/-- Does the location `pathname` match the path pattern `pattern` up to its end?  The pattern
without its trailing slashes must be followed in the location by trailing slashes only. -/
def matchPath (pattern pathname : JSString) : Bool :=
  match stripTrailingSlashes pattern with
  | [] =>
    -- the root pattern: one slash or more
    decide (pathname ≠ []) && decide (stripTrailingSlashes pathname = [])
  | _ :: segments =>
    match stripTrailingSlashes pathname with
    | 47 :: rest => matchSegments (splitSlash segments) (splitSlash rest)
    | _ => false

/-- The route that `Routes` renders for a location: the first match in rank order, if any. -/
def matchRoutes (routes : List Route) (pathname : JSString) : Option Route :=
  (rankRoutes routes).find? fun route => matchPath route.path pathname

/-- What `App` renders. -/
inductive Rendered where
  /-- The placeholder shown while `loading` is true; no `Routes` element is rendered. -/
  | loadingPlaceholder
  /-- The layout with the `Routes` element, and the element of the matched route if a route
  matches the location. -/
  | layout (matched : Option Element)
  deriving DecidableEq, Repr

/-- The render function of `App`, as far as routing goes. -/
def appRender (isAuthenticated loading : Bool) (pathname : JSString) : Rendered :=
  if loading then Rendered.loadingPlaceholder
  else Rendered.layout ((matchRoutes appRoutes pathname).map fun route =>
    route.element isAuthenticated)

/-! ## Reading a chart record -/

/-- The number a chart line with data key `k` reads from a record; 0 stands in when the
record has no numeric field `k`. -/
def fieldNumber (r : JSObject) (k : JSString) : Int :=
  match getField r k with
  | some (JSVal.num n) => n
  | _ => 0

/-! ## Example data -/

/-- Two methods with three distinct dates, given out of order, one date shared. -/
def chartExample : List MethodHistory :=
  [⟨utf16 "predict", [⟨utf16 "2024-03-02", 3⟩, ⟨utf16 "2024-03-01", 4⟩]⟩,
   ⟨utf16 "train", [⟨utf16 "2024-03-02", 7⟩, ⟨utf16 "2024-02-28", 1⟩]⟩]

/-- A page of three reports. -/
def reportsExample : List Report :=
  [{ id := utf16 "r1", method := utf16 "Predict", machine_id := utf16 "gpu-box", status := utf16 "success",
     timestamp := utf16 "2024-03-01T10:00:00", error := none, traceback := none },
   { id := utf16 "r2", method := utf16 "train", machine_id := utf16 "PRE-prod", status := utf16 "fail",
     timestamp := utf16 "2024-03-01T11:00:00", error := some (utf16 "out of memory"),
     traceback := none },
   { id := utf16 "r3", method := utf16 "export", machine_id := utf16 "laptop", status := utf16 "fail",
     timestamp := utf16 "2024-03-02T09:00:00", error := none, traceback := none }]

/-- A rejection carrying a response with status 401. -/
def error401 : JSError :=
  { message := utf16 "Request failed with status code 401", response := some { status := 401 } }

/-- A network that answers every request with status 401. -/
def reject401 (δ : Type) : Transport δ := fun _ => Except.error error401

def userExample : User := { username := utf16 "ann", email := utf16 "ann@example.org" }

/-- A network that answers every request with the example user. -/
def serveUser : Transport User := fun _ => Except.ok { status := 200, data := userExample }

/-- A browser with the token `abc` in local storage and nothing else. -/
def browserExample : Browser :=
  { localStorage := [(keyToken, utf16 "abc")], events := [], defaultHeaders := [],
    apiUrlEnv := none, sent := [] }

/-- A session signed in with the token `abc`. -/
def signedIn : AuthWorld :=
  { auth := { user := some userExample, isAuthenticated := true, loading := false,
              token := some (utf16 "abc") },
    browser := { browserExample with defaultHeaders := [(keyAuthorization, bearer (utf16 "abc"))] } }

/-- The signed-in session after another tab has stored the token `xyz`. -/
def signedInOtherToken : AuthWorld :=
  { signedIn with
      browser := { signedIn.browser with localStorage := [(keyToken, utf16 "xyz")] } }

/-- The signed-in session after the `token` entry has been removed from local storage. -/
def signedInNoToken : AuthWorld :=
  { signedIn with browser := { signedIn.browser with localStorage := [] } }

/-- The signed-in session after the `token` entry has been set to the empty string. -/
def signedInEmptyToken : AuthWorld :=
  { signedIn with browser := { signedIn.browser with localStorage := [(keyToken, [])] } }

def modelExample : Model := { name := utf16 "resnet", created_at := utf16 "2024-03-01T10:00:00" }

/-- The state of `ModelDetails` on its first render, for a fixed date range. -/
def modelDetailsInitial : ModelDetailsState :=
  { model := none, editing := false, loading := true, error := [], openDeleteDialog := false,
    uniqueUsers := 0, methodHistory := [],
    startDate := some (utf16 "2024-02-01T00:00:00.000Z"),
    endDate := some (utf16 "2024-03-01T00:00:00.000Z") }

/-- A rejection without a response. -/
def networkError : JSError := { message := utf16 "Network Error", response := none }

/-- A network that accepts the credentials and returns the token `abc`. -/
def serveToken : Transport TokenData :=
  fun _ => Except.ok { status := 200, data := { access_token := utf16 "abc", token_type := utf16 "bearer" } }

/-- A signed-out session with empty local storage. -/
def signedOut : AuthWorld :=
  { auth := { user := none, isAuthenticated := false, loading := false, token := none },
    browser := { browserExample with localStorage := [] } }

/-- A second model. -/
def modelExample2 : Model := { name := utf16 "bert", created_at := utf16 "2024-03-02T08:00:00" }

/-- The model list showing two models, with the delete dialog open for the first. -/
def modelListDeleting : ModelListState :=
  { models := [modelExample, modelExample2], error := [], loading := false,
    openDeleteDialog := true, modelToDelete := some modelExample }

/-- The details page of the model `resnet`, loaded, in edit mode. -/
def detailsPage : ModelDetailsPage :=
  { name := utf16 "resnet",
    view := { modelDetailsInitial with model := some modelExample, editing := true,
                                       loading := false },
    browser := browserExample,
    location := utf16 "/models/resnet" }

/-- A network that stores what it is sent under the name in the request body. -/
def serveUpdated : Transport Model :=
  fun config =>
    Except.ok { status := 200,
                data := { name := (config.data.getItem (utf16 "name")).getD [],
                          created_at := (config.data.getItem (utf16 "created_at")).getD [] } }

/-- A network that answers every request with an empty success. -/
def serveOk : Transport Unit := fun _ => Except.ok { status := 200, data := () }

/-- A page of ten reports. -/
def tenReports : List Report :=
  List.replicate 10
    { id := utf16 "r", method := utf16 "predict", machine_id := utf16 "gpu-box",
      status := utf16 "success", timestamp := utf16 "2024-03-01T10:00:00", error := none,
      traceback := none }

/-! ## Facts about the string order -/

theorem strLt_irrefl (x : JSString) : strLt x x = false := by
  induction x with
  | nil => rfl
  | cons a x ih => simp [strLt, ih]

theorem strLt_asymm : ∀ (x y : JSString), strLt x y = true → strLt y x = false
  | _, [], h => by simp [strLt] at h
  | [], _ :: _, _ => by simp [strLt]
  | a :: x, b :: y, h => by
    simp only [strLt] at h ⊢
    by_cases hab : a < b
    · have hba : ¬ b < a := by omega
      simp [hba, hab]
    · by_cases hba : b < a
      · simp [hab, hba] at h
      · simp only [hab, hba, if_false] at h ⊢
        exact strLt_asymm x y h

theorem strLt_trans : ∀ (x y z : JSString), strLt x y = true → strLt y z = true → strLt x z = true
  | _, [], _, h, _ => by simp [strLt] at h
  | _, _ :: _, [], _, h => by simp [strLt] at h
  | [], _ :: _, _ :: _, _, _ => by simp [strLt]
  | a :: x, b :: y, c :: z, h1, h2 => by
    simp only [strLt] at h1 h2 ⊢
    by_cases hab : a < b
    · by_cases hbc : b < c
      · have : a < c := by omega
        simp [this]
      · by_cases hcb : c < b
        · simp [hbc, hcb] at h2
        · have : a < c := by omega
          simp [this]
    · by_cases hba : b < a
      · simp [hab, hba] at h1
      · simp only [hab, hba, if_false] at h1
        have e : a = b := by omega
        subst e
        by_cases hac : a < c
        · simp [hac]
        · by_cases hca : c < a
          · simp [hac, hca] at h2
          · simp only [hac, hca, if_false] at h2 ⊢
            exact strLt_trans x y z h1 h2

theorem strLt_connex : ∀ (x y : JSString), strLt x y = false → strLt y x = false → x = y
  | [], [], _, _ => rfl
  | [], _ :: _, h, _ => by simp [strLt] at h
  | _ :: _, [], _, h => by simp [strLt] at h
  | a :: x, b :: y, h1, h2 => by
    simp only [strLt] at h1 h2
    by_cases hab : a < b
    · simp [hab] at h1
    · by_cases hba : b < a
      · simp [hba] at h2
      · simp only [hab, hba, if_false] at h1 h2
        have e : a = b := by omega
        rw [e, strLt_connex x y h1 h2]

theorem sortLe_iff (x y : JSString) : sortLe x y ↔ strLt y x = false := by
  unfold sortLe sortCompare
  cases hxy : strLt x y
  · cases hyx : strLt y x <;> simp
  · simp [strLt_asymm x y hxy]

theorem sortLe_total (x y : JSString) : sortLe x y ∨ sortLe y x := by
  rw [sortLe_iff, sortLe_iff]
  cases hyx : strLt y x
  · exact Or.inl rfl
  · exact Or.inr (strLt_asymm y x hyx)

theorem sortLe_trans (x y z : JSString) (hxy : sortLe x y) (hyz : sortLe y z) : sortLe x z := by
  rw [sortLe_iff] at hxy hyz ⊢
  cases hzx : strLt z x
  · rfl
  · cases hxy' : strLt x y
    · have e : x = y := strLt_connex x y hxy' hxy
      subst e
      rw [hzx] at hyz
      exact hyz
    · have := strLt_trans z x y hzx hxy'
      rw [this] at hyz
      exact hyz

/-- Sorting a duplicate-free array of strings gives a strictly ascending one. -/
theorem arraySort_strict (xs : List JSString) (hnd : xs.Nodup) :
    (arraySort xs).Pairwise (fun a b => strLt a b = true) := by
  haveI : IsTotal JSString sortLe := ⟨sortLe_total⟩
  haveI : IsTrans JSString sortLe := ⟨sortLe_trans⟩
  have hs : (arraySort xs).Pairwise sortLe := List.sorted_insertionSort sortLe xs
  have hnd' : (arraySort xs).Nodup := (List.perm_insertionSort sortLe xs).nodup_iff.mpr hnd
  have hboth := hs.and hnd'
  refine hboth.imp ?_
  intro a b hab
  obtain ⟨hle, hne⟩ := hab
  rw [sortLe_iff] at hle
  cases h : strLt a b
  · exact absurd (strLt_connex a b h hle) hne
  · rfl

theorem mem_arraySort (xs : List JSString) (d : JSString) : d ∈ arraySort xs ↔ d ∈ xs :=
  (List.perm_insertionSort sortLe xs).mem_iff

/-! ## Facts about the set of dates -/

theorem setAdd_nodup (s : List JSString) (x : JSString) (h : s.Nodup) : (setAdd s x).Nodup := by
  unfold setAdd
  split
  · exact h
  · rename_i hx
    exact List.nodup_append.mpr ⟨h, List.nodup_singleton x, by
      intro a ha hb
      rw [List.mem_singleton] at hb
      exact hx (hb ▸ ha)⟩

theorem mem_setAdd (s : List JSString) (x d : JSString) : d ∈ setAdd s x ↔ d ∈ s ∨ d = x := by
  unfold setAdd
  split
  · rename_i hx
    constructor
    · exact Or.inl
    · rintro (h | h)
      · exact h
      · exact h ▸ hx
  · simp

theorem addHistory_nodup (h : List HistoryItem) (s : List JSString) (hs : s.Nodup) :
    (h.foldl (fun ds item => setAdd ds item.date) s).Nodup := by
  induction h generalizing s with
  | nil => exact hs
  | cons i h ih => exact ih _ (setAdd_nodup s i.date hs)

theorem mem_addHistory (h : List HistoryItem) (s : List JSString) (d : JSString) :
    d ∈ h.foldl (fun ds item => setAdd ds item.date) s ↔ d ∈ s ∨ ∃ item ∈ h, item.date = d := by
  induction h generalizing s with
  | nil => simp
  | cons i h ih =>
    rw [List.foldl_cons, ih, mem_setAdd]
    constructor
    · rintro ((h1 | h1) | ⟨it, hit, e⟩)
      · exact Or.inl h1
      · exact Or.inr ⟨i, List.mem_cons_self _ _, h1.symm⟩
      · exact Or.inr ⟨it, List.mem_cons_of_mem _ hit, e⟩
    · rintro (h1 | ⟨it, hit, e⟩)
      · exact Or.inl (Or.inl h1)
      · rcases List.mem_cons.mp hit with rfl | hit
        · exact Or.inl (Or.inr e.symm)
        · exact Or.inr ⟨it, hit, e⟩

theorem addMethods_nodup (data : List MethodHistory) (s : List JSString) (hs : s.Nodup) :
    (data.foldl (fun dates method =>
      method.history.foldl (fun ds item => setAdd ds item.date) dates) s).Nodup := by
  induction data generalizing s with
  | nil => exact hs
  | cons m data ih => exact ih _ (addHistory_nodup m.history s hs)

theorem mem_addMethods (data : List MethodHistory) (s : List JSString) (d : JSString) :
    d ∈ data.foldl (fun dates method =>
      method.history.foldl (fun ds item => setAdd ds item.date) dates) s ↔
      d ∈ s ∨ ∃ m ∈ data, ∃ item ∈ m.history, item.date = d := by
  induction data generalizing s with
  | nil => simp
  | cons m data ih =>
    rw [List.foldl_cons, ih, mem_addHistory]
    constructor
    · rintro ((h1 | ⟨it, hit, e⟩) | ⟨m', hm', it, hit, e⟩)
      · exact Or.inl h1
      · exact Or.inr ⟨m, List.mem_cons_self _ _, it, hit, e⟩
      · exact Or.inr ⟨m', List.mem_cons_of_mem _ hm', it, hit, e⟩
    · rintro (h1 | ⟨m', hm', it, hit, e⟩)
      · exact Or.inl (Or.inl h1)
      · rcases List.mem_cons.mp hm' with rfl | hm'
        · exact Or.inl (Or.inr ⟨it, hit, e⟩)
        · exact Or.inr ⟨m', hm', it, hit, e⟩

theorem allDates_nodup (data : List MethodHistory) : (allDates data).Nodup :=
  addMethods_nodup data [] List.nodup_nil

theorem mem_allDates (data : List MethodHistory) (d : JSString) :
    d ∈ allDates data ↔ ∃ m ∈ data, ∃ item ∈ m.history, item.date = d := by
  unfold allDates
  rw [mem_addMethods]
  simp

theorem sortedDates_strict (data : List MethodHistory) :
    (sortedDates data).Pairwise (fun a b => strLt a b = true) :=
  arraySort_strict _ (allDates_nodup data)

theorem mem_sortedDates (data : List MethodHistory) (d : JSString) :
    d ∈ sortedDates data ↔ ∃ m ∈ data, ∃ item ∈ m.history, item.date = d := by
  unfold sortedDates
  rw [mem_arraySort, mem_allDates]

/-! ## Facts about chart records -/

theorem getField_putField (o : JSObject) (k k' : JSString) (v : JSVal) :
    getField (putField o k v) k' = if k = k' then some v else getField o k' := by
  induction o with
  | nil =>
    by_cases h : k = k' <;> simp [putField, getField, h]
  | cons p o ih =>
    obtain ⟨k0, v0⟩ := p
    by_cases h0 : k0 = k
    · subst h0
      by_cases h : k0 = k' <;> simp [putField, getField, h]
    · by_cases h1 : k0 = k'
      · subst h1
        have hne : ¬ k = k0 := fun e => h0 e.symm
        simp [putField, getField, h0, hne]
      · simp [putField, getField, h0, h1, ih]

theorem getField_setField (o : JSObject) (k k' : JSString) (v : JSVal) :
    getField (setField o k v) k' =
      if k = k' ∧ k ≠ keyProto then some v else getField o k' := by
  unfold setField
  by_cases hp : k = keyProto
  · simp [hp]
  · simp [hp, getField_putField]

/-- The value the `forEach` of `formatChartData` assigns for one method on one date. -/
theorem dataPoint_fold_other (data : List MethodHistory) (date k : JSString) (o : JSObject)
    (hk : ∀ m ∈ data, m.method ≠ k) :
    getField (data.foldl (fun dp method =>
        setField dp method.method
          (match method.history.find? (fun item => decide (item.date = date)) with
           | some item => JSVal.num item.count
           | none => JSVal.num 0)) o) k = getField o k := by
  induction data generalizing o with
  | nil => rfl
  | cons m data ih =>
    rw [List.foldl_cons, ih _ (fun m' hm' => hk m' (List.mem_cons_of_mem _ hm')),
      getField_setField]
    have : m.method ≠ k := hk m (List.mem_cons_self _ _)
    simp [this]

theorem dataPoint_fold_num (data : List MethodHistory) (date k : JSString) (o : JSObject)
    (hk : ∃ m ∈ data, m.method = k) (hp : k ≠ keyProto) :
    ∃ n, getField (data.foldl (fun dp method =>
        setField dp method.method
          (match method.history.find? (fun item => decide (item.date = date)) with
           | some item => JSVal.num item.count
           | none => JSVal.num 0)) o) k = some (JSVal.num n) := by
  induction data generalizing o with
  | nil => simp at hk
  | cons m data ih =>
    rw [List.foldl_cons]
    by_cases hlater : ∃ m' ∈ data, m'.method = k
    · exact ih _ hlater
    · have hnone : ∀ m' ∈ data, m'.method ≠ k := fun m' hm' e => hlater ⟨m', hm', e⟩
      obtain ⟨m0, hm0, e0⟩ := hk
      have hm : m.method = k := by
        rcases List.mem_cons.mp hm0 with rfl | h
        · exact e0
        · exact absurd e0 (hnone m0 h)
      rw [dataPoint_fold_other data date k _ hnone, getField_setField]
      have hp' : m.method ≠ keyProto := hm ▸ hp
      simp only [hm, hp, ne_eq, not_false_eq_true, and_self, if_true]
      cases m.history.find? (fun item => decide (item.date = date)) with
      | none => exact ⟨0, rfl⟩
      | some item => exact ⟨item.count, rfl⟩

theorem find_date_none (h : List HistoryItem) (date : JSString)
    (hno : ∀ item ∈ h, item.date ≠ date) :
    h.find? (fun item => decide (item.date = date)) = none := by
  rw [List.find?_eq_none]
  intro item hitem
  simpa using hno item hitem

theorem dataPoint_fold_zero (post : List MethodHistory) (date k : JSString) (o : JSObject)
    (ho : getField o k = some (JSVal.num 0))
    (hpost : ∀ m ∈ post, m.method = k → ∀ item ∈ m.history, item.date ≠ date) :
    getField (post.foldl (fun dp method =>
        setField dp method.method
          (match method.history.find? (fun item => decide (item.date = date)) with
           | some item => JSVal.num item.count
           | none => JSVal.num 0)) o) k = some (JSVal.num 0) := by
  induction post generalizing o with
  | nil => exact ho
  | cons m post ih =>
    rw [List.foldl_cons]
    apply ih
    · rw [getField_setField]
      by_cases hm : m.method = k
      · by_cases hp : m.method = keyProto
        · simp [hp, ho]
        · rw [find_date_none m.history date (hpost m (List.mem_cons_self _ _) hm)]
          rw [if_pos ⟨hm, hp⟩]
      · simp [hm, ho]
    · exact fun m' hm' => hpost m' (List.mem_cons_of_mem _ hm')

theorem dataPoint_date (data : List MethodHistory) (date : JSString)
    (hk : ∀ m ∈ data, m.method ≠ keyDate) :
    getField (dataPoint data date) keyDate = some (JSVal.str date) := by
  unfold dataPoint
  rw [dataPoint_fold_other data date keyDate _ hk]
  simp [getField]

theorem dataPoint_date_cases (data : List MethodHistory) (date : JSString) :
    getField (dataPoint data date) keyDate = some (JSVal.str date) ∨
      ∃ n, getField (dataPoint data date) keyDate = some (JSVal.num n) := by
  by_cases hk : ∃ m ∈ data, m.method = keyDate
  · exact Or.inr (dataPoint_fold_num data date keyDate _ hk (by decide))
  · exact Or.inl (dataPoint_date data date (fun m hm e => hk ⟨m, hm, e⟩))

theorem dataPoint_zero (pre post : List MethodHistory) (m : MethodHistory) (date : JSString)
    (hp : m.method ≠ keyProto)
    (hm : ∀ item ∈ m.history, item.date ≠ date)
    (hpost : ∀ m' ∈ post, m'.method = m.method → ∀ item ∈ m'.history, item.date ≠ date) :
    getField (dataPoint (pre ++ m :: post) date) m.method = some (JSVal.num 0) := by
  unfold dataPoint
  rw [List.foldl_append, List.foldl_cons]
  apply dataPoint_fold_zero post date m.method _ _ hpost
  rw [getField_setField, find_date_none m.history date hm]
  simp [hp]

theorem mem_formatChartData (data : List MethodHistory) (r : JSObject)
    (hr : r ∈ formatChartData data) : ∃ d ∈ sortedDates data, r = dataPoint data d := by
  unfold formatChartData at hr
  obtain ⟨d, hd, e⟩ := List.mem_map.mp hr
  exact ⟨d, hd, e.symm⟩

/-! ## Facts about substring search and stores -/

theorem stringIndexOf_isSome (searchValue s : JSString) (i : Nat) :
    (stringIndexOf searchValue s i).isSome = true ↔ searchValue <:+: s := by
  induction s generalizing i with
  | nil =>
    unfold stringIndexOf
    by_cases h : searchValue = []
    · simp [h]
    · simp [h]
  | cons c rest ih =>
    unfold stringIndexOf
    rw [List.infix_cons_iff]
    by_cases h : searchValue.isPrefixOf (c :: rest) = true
    · rw [if_pos h]
      simp only [Option.isSome_some, true_iff]
      exact Or.inl (List.isPrefixOf_iff_prefix.mp h)
    · rw [if_neg h, ih]
      constructor
      · exact Or.inr
      · rintro (hp | hi)
        · exact absurd (List.isPrefixOf_iff_prefix.mpr hp) h
        · exact hi

theorem includes_iff (s searchString : JSString) :
    includes s searchString = true ↔ searchString <:+: s :=
  stringIndexOf_isSome searchString s 0

theorem includes_empty (s : JSString) : includes s [] = true :=
  (includes_iff s []).mpr List.nil_infix

theorem getItem_removeItem (st : Store) (k : JSString) : (st.removeItem k).getItem k = none := by
  induction st with
  | nil => rfl
  | cons p st ih =>
    obtain ⟨k0, v0⟩ := p
    unfold Store.removeItem at ih ⊢
    by_cases h : k0 = k
    · simpa [List.filter, h] using ih
    · simp only [List.filter, ne_eq, h, not_false_eq_true, decide_True]
      unfold Store.getItem
      rw [if_neg h]
      exact ih

theorem removeItem_removeItem (st : Store) (k : JSString) :
    (st.removeItem k).removeItem k = st.removeItem k := by
  unfold Store.removeItem
  rw [List.filter_filter]
  simp

theorem getItem_setItem (st : Store) (k k' v : JSString) :
    (st.setItem k v).getItem k' = if k = k' then some v else st.getItem k' := by
  induction st with
  | nil =>
    by_cases h : k = k' <;> simp [Store.setItem, Store.getItem, h]
  | cons p st ih =>
    obtain ⟨k0, v0⟩ := p
    by_cases h0 : k0 = k
    · subst h0
      by_cases h : k0 = k' <;> simp [Store.setItem, Store.getItem, h]
    · by_cases h1 : k0 = k'
      · subst h1
        have hne : ¬ k = k0 := fun e => h0 e.symm
        simp [Store.setItem, Store.getItem, h0, hne]
      · simp [Store.setItem, Store.getItem, h0, h1, ih]

/-! ## Facts about the two ways of sending a request -/

theorem apiRequest_401_eq {δ : Type} (t : Transport δ) (config : RequestConfig) (b : Browser)
    (e : JSError) (h401 : e.response = some { status := 401 }) (ht : ∀ cfg, t cfg = Except.error e) :
    apiRequest t config b =
      ({ localStorage := b.localStorage.removeItem keyToken
         events := b.events ++ [utf16 "storage"]
         defaultHeaders := b.defaultHeaders
         apiUrlEnv := b.apiUrlEnv
         sent := b.sent ++ [requestInterceptor b { config with baseURL := API_URL b }] },
       Except.error e) := by
  unfold apiRequest
  simp only [ht]
  unfold responseErrorInterceptor
  simp [h401]

theorem apiRequest_401 {δ : Type} (t : Transport δ) (config : RequestConfig) (b : Browser)
    (e : JSError) (h401 : e.response = some { status := 401 }) (ht : ∀ cfg, t cfg = Except.error e) :
    (apiRequest t config b).1.localStorage = b.localStorage.removeItem keyToken ∧
    (apiRequest t config b).1.events = b.events ++ [utf16 "storage"] := by
  rw [apiRequest_401_eq t config b e h401 ht]
  exact ⟨rfl, rfl⟩

theorem axiosRequest_frame {δ : Type} (t : Transport δ) (config : RequestConfig) (b : Browser) :
    (axiosRequest t config b).1.localStorage = b.localStorage ∧
    (axiosRequest t config b).1.events = b.events ∧
    (axiosRequest t config b).1.defaultHeaders = b.defaultHeaders := by
  unfold axiosRequest
  exact ⟨rfl, rfl, rfl⟩

theorem getReports_401 {δ : Type} (name : JSString) (page limit : Int) (t : Transport δ)
    (b : Browser) (e : JSError) (h401 : e.response = some { status := 401 })
    (ht : ∀ cfg, t cfg = Except.error e) :
    (getReports name page limit t b).1.localStorage = b.localStorage.removeItem keyToken ∧
    (getReports name page limit t b).1.events = b.events ++ [utf16 "storage"] := by
  unfold getReports
  simp only
  rw [apiRequest_401_eq t _ b e h401 ht]
  exact ⟨rfl, rfl⟩

theorem getCurrentUser_frame {δ : Type} (token : JSString) (t : Transport δ) (b : Browser) :
    (getCurrentUser token t b).1.localStorage = b.localStorage ∧
    (getCurrentUser token t b).1.events = b.events ∧
    (getCurrentUser token t b).1.defaultHeaders = b.defaultHeaders ∧
    (getCurrentUser token t b).1.sent.length = b.sent.length + 1 := by
  unfold getCurrentUser responseData axiosRequest
  simp

/-- What `loadUser` leaves when it is given a token that is not empty. -/
theorem loadUser_truthy (authToken : Option JSString) (t : Transport User) (w : AuthWorld)
    (htok : truthy authToken = true) :
    (∀ u, (getCurrentUser (authToken.getD []) t (setAuthToken authToken w.browser)).2
        = Except.ok u →
      loadUser authToken t w =
        { auth := { w.auth with user := some u, isAuthenticated := true, loading := false },
          browser := (getCurrentUser (authToken.getD []) t (setAuthToken authToken w.browser)).1 }) ∧
    (∀ e, (getCurrentUser (authToken.getD []) t (setAuthToken authToken w.browser)).2
        = Except.error e →
      loadUser authToken t w =
        { auth := { w.auth with isAuthenticated := false, user := none, token := none,
                                loading := false },
          browser :=
            { (getCurrentUser (authToken.getD []) t (setAuthToken authToken w.browser)).1 with
              localStorage :=
                (getCurrentUser (authToken.getD []) t
                  (setAuthToken authToken w.browser)).1.localStorage.removeItem keyToken } }) := by
  unfold loadUser
  simp only [htok, not_true_eq_false, if_false]
  generalize getCurrentUser (authToken.getD []) t (setAuthToken authToken w.browser) = r
  obtain ⟨b', res⟩ := r
  cases res with
  | ok u =>
    constructor
    · intro u' h
      simp only at h
      cases h
      rfl
    · intro e h
      simp at h
  | error e =>
    constructor
    · intro u h
      simp at h
    · intro e' _
      rfl

theorem loadUser_falsy (authToken : Option JSString) (t : Transport User) (w : AuthWorld)
    (htok : truthy authToken = false) :
    loadUser authToken t w =
      { w with auth := { w.auth with isAuthenticated := false, user := none, loading := false } } := by
  unfold loadUser
  simp [htok]

theorem setAuthToken_localStorage (token : Option JSString) (b : Browser) :
    (setAuthToken token b).localStorage = b.localStorage ∧
    (setAuthToken token b).sent = b.sent ∧ (setAuthToken token b).events = b.events := by
  unfold setAuthToken
  split <;> exact ⟨rfl, rfl, rfl⟩

/-! ## Facts about the requests of `getReports` -/

theorem apiRequest_sent {δ : Type} (t : Transport δ) (config : RequestConfig) (b : Browser) :
    (apiRequest t config b).1.sent
      = b.sent ++ [requestInterceptor b { config with baseURL := API_URL b }] := by
  unfold apiRequest
  simp only
  cases t (requestInterceptor b { config with baseURL := API_URL b }) with
  | ok response => rfl
  | error e =>
    simp only
    unfold responseErrorInterceptor
    cases hr : e.response with
    | none => rfl
    | some response =>
      by_cases h : response.status = 401
      · simp [h]
      · simp [h]

theorem getReports_sent {δ : Type} (name : JSString) (page limit : Int) (t : Transport δ)
    (b : Browser) :
    (getReports name page limit t b).1.sent
      = b.sent ++
        [requestInterceptor b
          { method := utf16 "get", baseURL := API_URL b, url := utf16 "/reports/" ++ name,
            headers := [],
            params := [(utf16 "skip", numberToString (reportsSkip page limit)),
                       (utf16 "limit", numberToString (JSNumber.ofInt limit))],
            data := [] }] := by
  have h := apiRequest_sent t
    { request (utf16 "get") (utf16 "/reports/" ++ name) with
        params := [(utf16 "skip", numberToString (reportsSkip page limit)),
                   (utf16 "limit", numberToString (JSNumber.ofInt limit))] } b
  unfold getReports
  simp only
  split
  · rename_i b' response heq
    rw [heq] at h
    split <;> exact h
  · rename_i b' error heq
    rw [heq] at h
    exact h

/-! ## Facts about numbers in the safe range -/

theorem roundDouble_safe (v : Nat) (h : v ≤ 2 ^ 53) : roundDouble v = some v := by
  unfold roundDouble
  rw [if_pos h]

theorem ofInt_safe (n : Int) (h : n.natAbs ≤ 2 ^ 53) : JSNumber.ofInt n = JSNumber.int n := by
  unfold JSNumber.ofInt
  rw [roundDouble_safe n.natAbs h]
  simp only
  by_cases hn : n < 0
  · rw [if_pos hn]
    congr 1
    omega
  · rw [if_neg hn]
    congr 1
    omega

theorem numberToString_safe (n : Int) (h0 : 0 ≤ n) (h : n ≤ 2 ^ 53) :
    numberToString (JSNumber.int n) = decimal n := by
  obtain ⟨m, rfl⟩ := Int.eq_ofNat_of_zero_le h0
  have hm : m ≤ 2 ^ 53 := by
    have : (m : Int) ≤ 2 ^ 53 := h
    exact_mod_cast this
  have hneg : ¬ ((m : Int) < 0) := by omega
  simp only [numberToString]
  rw [if_neg hneg]
  unfold natToString
  rw [if_pos (by simpa using hm)]
  rfl

theorem reportsSkip_safe (page limit : Int) (hpage : 1 ≤ page) (hlimit : 1 ≤ limit)
    (hsafe : page * limit ≤ 2 ^ 53) :
    reportsSkip page limit = JSNumber.int ((page - 1) * limit) ∧
    JSNumber.ofInt limit = JSNumber.int limit ∧
    0 ≤ (page - 1) * limit ∧ (page - 1) * limit ≤ 2 ^ 53 ∧ limit ≤ 2 ^ 53 := by
  have hp : page ≤ 2 ^ 53 := by nlinarith
  have hl : limit ≤ 2 ^ 53 := by nlinarith
  have hs0 : 0 ≤ (page - 1) * limit := Int.mul_nonneg (by omega) (by omega)
  have hs : (page - 1) * limit ≤ 2 ^ 53 := by nlinarith
  have e1 : JSNumber.ofInt page = JSNumber.int page := ofInt_safe page (by omega)
  have e2 : JSNumber.ofInt limit = JSNumber.int limit := ofInt_safe limit (by omega)
  have e3 : JSNumber.ofInt (page - 1) = JSNumber.int (page - 1) :=
    ofInt_safe (page - 1) (by omega)
  have e4 : JSNumber.ofInt ((page - 1) * limit) = JSNumber.int ((page - 1) * limit) :=
    ofInt_safe _ (by omega)
  refine ⟨?_, e2, hs0, hs, hl⟩
  unfold reportsSkip
  rw [e1, e2]
  simp only [JSNumber.sub, JSNumber.mul]
  rw [e3]
  simp only [JSNumber.mul]
  rw [e4]

/-! ## Facts about route matching -/

theorem rankRoutes_appRoutes :
    rankRoutes appRoutes = [routeModelNew, routeModelDetails, routeLogin, routeRegister, routeRoot] := by
  rfl

theorem matchRoutes_mem (routes : List Route) (pathname : JSString) (r : Route)
    (h : matchRoutes routes pathname = some r) :
    r ∈ routes ∧ matchPath r.path pathname = true := by
  unfold matchRoutes at h
  constructor
  · have hmem := List.mem_of_find?_eq_some h
    unfold rankRoutes at hmem
    exact (List.perm_insertionSort _ routes).mem_iff.mp hmem
  · exact @List.find?_some _ (fun route => matchPath route.path pathname) r _ h

theorem splitSlash_of_not_mem (s : JSString) (h : 47 ∉ s) : splitSlash s = [s] := by
  induction s with
  | nil => rfl
  | cons c rest ih =>
    have hc : c ≠ 47 := fun e => h (e ▸ List.mem_cons_self _ _)
    have hrest : 47 ∉ rest := fun hm => h (List.mem_cons_of_mem _ hm)
    unfold splitSlash
    rw [if_neg hc, ih hrest]

theorem stripTrailingSlashes_append (s name : JSString) (hne : name ≠ []) (h : 47 ∉ name) :
    stripTrailingSlashes (s ++ name) = s ++ name := by
  unfold stripTrailingSlashes
  obtain ⟨init, c, rfl⟩ : ∃ init c, name = init ++ [c] :=
    ⟨name.dropLast, name.getLast hne, (List.dropLast_append_getLast hne).symm⟩
  have hc : c ≠ 47 := fun e => h (by simp [e])
  have hrev : (s ++ (init ++ [c])).reverse = c :: (s ++ init).reverse := by
    simp
  rw [hrev, List.dropWhile_cons_of_neg (by simpa using hc)]
  simp

/-- A location `/models/{name}`, for a name that is not empty and has no slash, matches the
pattern `/models/:name`. -/
theorem matchPath_modelDetails (name : JSString) (hne : name ≠ []) (h : 47 ∉ name) :
    matchPath routeModelDetails.path (utf16 "/models/" ++ name) = true := by
  have hp : stripTrailingSlashes routeModelDetails.path
      = 47 :: utf16 "models/:name" := by decide
  have hl : stripTrailingSlashes (utf16 "/models/" ++ name)
      = 47 :: (utf16 "models/" ++ name) := by
    rw [stripTrailingSlashes_append _ name hne h]
    rfl
  have hsplit : splitSlash (utf16 "models/" ++ name) = [utf16 "models", name] := by
    have e : utf16 "models/" ++ name = 109 :: 111 :: 100 :: 101 :: 108 :: 115 :: 47 :: name := rfl
    rw [e]
    simp [splitSlash, splitSlash_of_not_mem name h]
    rfl
  unfold matchPath
  rw [hp, hl]
  simp only
  rw [hsplit]
  have hs : splitSlash (utf16 "models/:name") = [utf16 "models", utf16 ":name"] := by decide
  rw [hs]
  simp only [matchSegments]
  have h1 : isParamSegment (utf16 "models") = false := by decide
  have h2 : isParamSegment (utf16 ":name") = true := by decide
  simp [h1, h2, hne]

/-! ## Facts about the handlers of the model-details page -/

theorem updateModel_sent {δ : Type} (name : JSString) (modelData : Store) (t : Transport δ)
    (b : Browser) :
    (updateModel name modelData t b).1.sent
      = b.sent ++
        [requestInterceptor b
          { method := utf16 "put", baseURL := API_URL b, url := utf16 "/models/" ++ name,
            headers := [], params := [], data := modelData }] :=
  apiRequest_sent t { request (utf16 "put") (utf16 "/models/" ++ name) with data := modelData } b

/-- Whatever the answer, `handleUpdate` after the name has been edited to `value` sends
`PUT /models/{value}`: the path carries the edited name, not the route parameter. -/
theorem handleUpdate_sent (t : Transport Model) (p : ModelDetailsPage) (model : Model)
    (hm : p.view.model = some model) (value : JSString) :
    (handleUpdate t (onModelNameChange value p)).browser.sent
      = p.browser.sent ++
        [requestInterceptor p.browser
          { method := utf16 "put", baseURL := API_URL p.browser, url := utf16 "/models/" ++ value,
            headers := [], params := [],
            data := [(utf16 "name", value), (utf16 "created_at", model.created_at)] }] := by
  have hsent := updateModel_sent value
    [(utf16 "name", value), (utf16 "created_at", model.created_at)] t p.browser
  unfold handleUpdate onModelNameChange
  simp only [hm, Model.toData]
  split
  · rename_i b' updated heq
    rw [heq] at hsent
    exact hsent
  · rename_i b' e heq
    rw [heq] at hsent
    exact hsent

/-- A delete that succeeds navigates to `/models`. -/
theorem handleDelete_location (t : Transport Unit) (p : ModelDetailsPage) (u : Unit)
    (hok : (deleteModel p.name t p.browser).2 = Except.ok u) :
    (handleDelete t p).location = utf16 "/models" := by
  unfold handleDelete
  split
  · rfl
  · rename_i b' e heq
    rw [heq] at hok
    cases hok

/-! ## Facts about `login` -/

theorem loginUser_frame {δ : Type} (username password : JSString) (t : Transport δ)
    (b : Browser) :
    (loginUser username password t b).1.localStorage = b.localStorage ∧
    (loginUser username password t b).1.events = b.events ∧
    (loginUser username password t b).1.defaultHeaders = b.defaultHeaders := by
  unfold loginUser responseData
  exact axiosRequest_frame t _ b

theorem login_ok (username password : JSString) (tLogin : Transport TokenData)
    (tUser : Transport User) (w : AuthWorld) (data : TokenData)
    (h : (loginUser username password tLogin w.browser).2 = Except.ok data) :
    login username password tLogin tUser w =
      (loadUser (some data.access_token) tUser
        { auth := { w.auth with token := some data.access_token },
          browser := storeToken data.access_token
            (loginUser username password tLogin w.browser).1 }, true) := by
  unfold login
  revert h
  generalize loginUser username password tLogin w.browser = r
  obtain ⟨b, res⟩ := r
  intro h
  simp only at h
  subst h
  rfl

theorem login_error (username password : JSString) (tLogin : Transport TokenData)
    (tUser : Transport User) (w : AuthWorld) (e : JSError)
    (h : (loginUser username password tLogin w.browser).2 = Except.error e) :
    login username password tLogin tUser w =
      ({ w with browser := (loginUser username password tLogin w.browser).1 }, false) := by
  unfold login
  revert h
  generalize loginUser username password tLogin w.browser = r
  obtain ⟨b, res⟩ := r
  intro h
  simp only at h
  subst h
  rfl

/-! ## Facts about the counts in chart records -/

theorem find_date_first (before after : List HistoryItem) (item : HistoryItem) (d : JSString)
    (hbefore : ∀ x ∈ before, x.date ≠ d) (hitem : item.date = d) :
    (before ++ item :: after).find? (fun x => decide (x.date = d)) = some item := by
  induction before with
  | nil => simp [List.find?, hitem]
  | cons x before ih =>
    have hx : x.date ≠ d := hbefore x (List.mem_cons_self _ _)
    simp only [List.cons_append, List.find?, hx, decide_False]
    exact ih (fun y hy => hbefore y (List.mem_cons_of_mem _ hy))

/-- The field of a method in the record of a date, when no later entry has the same name. -/
theorem dataPoint_field (pre post : List MethodHistory) (m : MethodHistory) (date : JSString)
    (hp : m.method ≠ keyProto) (hpost : ∀ m' ∈ post, m'.method ≠ m.method) :
    getField (dataPoint (pre ++ m :: post) date) m.method =
      some (match m.history.find? (fun item => decide (item.date = date)) with
            | some item => JSVal.num item.count
            | none => JSVal.num 0) := by
  unfold dataPoint
  rw [List.foldl_append, List.foldl_cons, dataPoint_fold_other post date m.method _ hpost,
    getField_setField]
  simp [hp]

theorem split_of_nodup_names (data : List MethodHistory) (m : MethodHistory)
    (hnd : (data.map fun x => x.method).Nodup) (hm : m ∈ data) :
    ∃ pre post, data = pre ++ m :: post ∧ ∀ m' ∈ post, m'.method ≠ m.method := by
  obtain ⟨pre, post, rfl⟩ := List.append_of_mem hm
  refine ⟨pre, post, rfl, ?_⟩
  rw [List.map_append, List.map_cons] at hnd
  have h2 := (List.nodup_append.mp hnd).2.1
  have h3 := (List.nodup_cons.mp h2).1
  intro m' hm' e
  exact h3 (e ▸ List.mem_map_of_mem (fun x => x.method) hm')

theorem dataPoint_fieldNumber (data : List MethodHistory) (m : MethodHistory) (date : JSString)
    (hnd : (data.map fun x => x.method).Nodup) (hm : m ∈ data) (hp : m.method ≠ keyProto) :
    fieldNumber (dataPoint data date) m.method =
      match m.history.find? (fun item => decide (item.date = date)) with
      | some item => item.count
      | none => 0 := by
  obtain ⟨pre, post, rfl, hpost⟩ := split_of_nodup_names data m hnd hm
  unfold fieldNumber
  rw [dataPoint_field pre post m date hp hpost]
  cases m.history.find? (fun item => decide (item.date = date)) <;> rfl

theorem sum_single (L : List JSString) (hL : L.Nodup) (a : JSString) (c : Int) (ha : a ∈ L) :
    (L.map fun d => if a = d then c else 0).sum = c := by
  induction L with
  | nil => simp at ha
  | cons x L ih =>
    have hx : x ∉ L := (List.nodup_cons.mp hL).1
    have hL' : L.Nodup := (List.nodup_cons.mp hL).2
    rw [List.map_cons, List.sum_cons]
    by_cases hax : a = x
    · subst hax
      have hzero : (L.map fun d => if a = d then c else 0) = L.map fun _ => (0 : Int) := by
        apply List.map_congr_left
        intro d hd
        have : a ≠ d := fun e => hx (e ▸ hd)
        simp [this]
      rw [hzero]
      simp
    · have haL : a ∈ L := by
        rcases List.mem_cons.mp ha with h | h
        · exact absurd h hax
        · exact h
      rw [ih hL' haL]
      simp [hax]

theorem sum_cells (L : List JSString) (hL : L.Nodup) (h : List HistoryItem)
    (hall : ∀ item ∈ h, item.date ∈ L) (hnd : (h.map fun item => item.date).Nodup) :
    (L.map fun d =>
      match h.find? (fun item => decide (item.date = d)) with
      | some item => item.count
      | none => 0).sum = (h.map fun item => item.count).sum := by
  induction h with
  | nil => simp
  | cons it h ih =>
    have hnotin : it.date ∉ h.map fun item => item.date := (List.nodup_cons.mp hnd).1
    have hnd' : (h.map fun item => item.date).Nodup := (List.nodup_cons.mp hnd).2
    have hnone : h.find? (fun item => decide (item.date = it.date)) = none := by
      apply find_date_none
      intro item hitem e
      exact hnotin (e ▸ List.mem_map_of_mem (fun item => item.date) hitem)
    have hpoint : ∀ d,
        (match (it :: h).find? (fun item => decide (item.date = d)) with
          | some item => item.count
          | none => 0) =
        (if it.date = d then it.count else 0) +
          (match h.find? (fun item => decide (item.date = d)) with
           | some item => item.count
           | none => 0) := by
      intro d
      by_cases hd : it.date = d
      · subst hd
        simp [List.find?, hnone]
      · simp [List.find?, hd]
    have hfun : (fun d =>
        match (it :: h).find? (fun item => decide (item.date = d)) with
          | some item => item.count
          | none => 0) =
        fun d => (if it.date = d then it.count else 0) +
          (match h.find? (fun item => decide (item.date = d)) with
           | some item => item.count
           | none => 0) := funext hpoint
    rw [hfun, List.sum_map_add,
      sum_single L hL it.date it.count (hall it (List.mem_cons_self _ _)),
      ih (fun item hitem => hall item (List.mem_cons_of_mem _ hitem)) hnd']
    simp

theorem sortedDates_nodup (data : List MethodHistory) : (sortedDates data).Nodup := by
  unfold sortedDates arraySort
  exact (List.perm_insertionSort sortLe (allDates data)).nodup_iff.mpr (allDates_nodup data)

/-! ## Chart data: the claims -/

/-- C1: when no method of the input is named `date`, the `date` fields of the records returned
by `formatChartData`, read in order, are the elements of a list `ds` of strings that is
strictly ascending in the string order (so it has no repetition) and whose elements are exactly
the dates occurring in some history: one record per distinct date.  The empty input, and an
input whose histories are all empty, give the empty list. -/
theorem formatChartData_dates (data : List MethodHistory)
    (hdate : ∀ m ∈ data, m.method ≠ keyDate) :
    (∃ ds : List JSString,
      (formatChartData data).map (fun r => getField r keyDate)
        = ds.map (fun d => some (JSVal.str d)) ∧
      ds.Pairwise (fun a b => strLt a b = true) ∧
      ∀ d, d ∈ ds ↔ ∃ m ∈ data, ∃ item ∈ m.history, item.date = d) ∧
    formatChartData [] = [] ∧
    ((∀ m ∈ data, m.history = []) → formatChartData data = []) := by
  refine ⟨⟨sortedDates data, ?_, sortedDates_strict data, mem_sortedDates data⟩, rfl, ?_⟩
  · unfold formatChartData
    rw [List.map_map]
    apply List.map_congr_left
    intro d _
    exact dataPoint_date data d hdate
  · intro hempty
    have hnil : sortedDates data = [] := by
      apply List.eq_nil_iff_forall_not_mem.mpr
      intro d hd
      obtain ⟨m, hm, item, hitem, _⟩ := (mem_sortedDates data d).mp hd
      rw [hempty m hm] at hitem
      exact List.not_mem_nil _ hitem
    unfold formatChartData
    rw [hnil]
    rfl

theorem formatChartData_dates_witness :
    (∃ ds : List JSString,
      (formatChartData chartExample).map (fun r => getField r keyDate)
        = ds.map (fun d => some (JSVal.str d)) ∧
      ds.Pairwise (fun a b => strLt a b = true) ∧
      ∀ d, d ∈ ds ↔ ∃ m ∈ chartExample, ∃ item ∈ m.history, item.date = d) ∧
    (formatChartData chartExample).length = 3 ∧
    formatChartData [⟨utf16 "predict", []⟩, ⟨utf16 "train", []⟩] = [] :=
  ⟨(formatChartData_dates chartExample (by decide)).1, by decide,
   (formatChartData_dates [⟨utf16 "predict", []⟩, ⟨utf16 "train", []⟩] (by decide)).2.2
     (by decide)⟩

/-- C2, as stated, fails on the code.  With two entries of the same method name the later
entry overwrites the field of the earlier one: the first entry below has no item on the date
`d`, yet the field `m` of the record of `d` is 5.  With an entry named `__proto__` the
assignment creates no field at all. -/
theorem formatChartData_zero_fill_counterexample :
    (formatChartData [⟨utf16 "m", []⟩, ⟨utf16 "m", [⟨utf16 "d", 5⟩]⟩]
        = [[(keyDate, JSVal.str (utf16 "d")), (utf16 "m", JSVal.num 5)]] ∧
      getField [(keyDate, JSVal.str (utf16 "d")), (utf16 "m", JSVal.num 5)] (utf16 "m")
        ≠ some (JSVal.num 0)) ∧
    (formatChartData [⟨utf16 "__proto__", []⟩, ⟨utf16 "a", [⟨utf16 "d", 1⟩]⟩]
        = [[(keyDate, JSVal.str (utf16 "d")), (utf16 "a", JSVal.num 1)]] ∧
      getField [(keyDate, JSVal.str (utf16 "d")), (utf16 "a", JSVal.num 1)] (utf16 "__proto__")
        = none) := by
  decide

/-- C2, amended: the records returned by `formatChartData` stand in the order of the sorted
distinct dates, the record at position `i` being the one built for the date `d` at position
`i`: `d` occurs in some history, the `date` field of the record is `d` unless a method is named
`date`, and whenever the `date` field holds a string, the string is `d`.  For every entry `m`
of the input that is not named `__proto__`, has no item on `d`, and is not followed in the
input by an entry of the same method name with an item on `d`, the field of the record named
after `m` is 0.  Every record has a numeric field for every method name of the input other
than `__proto__`. -/
theorem formatChartData_zero_fill (data : List MethodHistory) (i : Nat) (r : JSObject)
    (hr : (formatChartData data)[i]? = some r) :
    ∃ d : JSString,
      (sortedDates data)[i]? = some d ∧
      (∃ m ∈ data, ∃ item ∈ m.history, item.date = d) ∧
      ((∀ m ∈ data, m.method ≠ keyDate) → getField r keyDate = some (JSVal.str d)) ∧
      (∀ d', getField r keyDate = some (JSVal.str d') → d' = d) ∧
      (∀ (pre post : List MethodHistory) (m : MethodHistory),
        data = pre ++ m :: post → m.method ≠ keyProto →
        (∀ item ∈ m.history, item.date ≠ d) →
        (∀ m' ∈ post, m'.method = m.method → ∀ item ∈ m'.history, item.date ≠ d) →
        getField r m.method = some (JSVal.num 0)) ∧
      (∀ m ∈ data, m.method ≠ keyProto → ∃ n, getField r m.method = some (JSVal.num n)) := by
  unfold formatChartData at hr
  rw [List.getElem?_map] at hr
  cases hd : (sortedDates data)[i]? with
  | none =>
    rw [hd] at hr
    cases hr
  | some d =>
    rw [hd] at hr
    simp only [Option.map_some', Option.some.injEq] at hr
    subst hr
    refine ⟨d, rfl, ?_, ?_, ?_, ?_, ?_⟩
    · exact (mem_sortedDates data d).mp (List.getElem?_mem hd)
    · intro hdate
      exact dataPoint_date data d hdate
    · intro d' hd'
      rcases dataPoint_date_cases data d with h | ⟨n, h⟩
      · rw [h] at hd'
        injection hd' with hd'
        injection hd' with hd'
        exact hd'.symm
      · rw [h] at hd'
        injection hd' with hd'
        cases hd'
    · intro pre post m hsplit hproto hm hpost
      subst hsplit
      exact dataPoint_zero pre post m d hproto hm hpost
    · intro m hm hproto
      exact dataPoint_fold_num data d m.method _ ⟨m, hm, rfl⟩ hproto

theorem formatChartData_zero_fill_witness :
    (∃ d : JSString,
      (sortedDates chartExample)[1]? = some d ∧
      (∃ m ∈ chartExample, ∃ item ∈ m.history, item.date = d) ∧
      ((∀ m ∈ chartExample, m.method ≠ keyDate) →
        getField [(keyDate, JSVal.str (utf16 "2024-03-01")), (utf16 "predict", JSVal.num 4),
          (utf16 "train", JSVal.num 0)] keyDate = some (JSVal.str d)) ∧
      (∀ d', getField [(keyDate, JSVal.str (utf16 "2024-03-01")), (utf16 "predict", JSVal.num 4),
          (utf16 "train", JSVal.num 0)] keyDate = some (JSVal.str d') → d' = d) ∧
      (∀ (pre post : List MethodHistory) (m : MethodHistory),
        chartExample = pre ++ m :: post → m.method ≠ keyProto →
        (∀ item ∈ m.history, item.date ≠ d) →
        (∀ m' ∈ post, m'.method = m.method → ∀ item ∈ m'.history, item.date ≠ d) →
        getField [(keyDate, JSVal.str (utf16 "2024-03-01")), (utf16 "predict", JSVal.num 4),
          (utf16 "train", JSVal.num 0)] m.method = some (JSVal.num 0)) ∧
      (∀ m ∈ chartExample, m.method ≠ keyProto →
        ∃ n, getField [(keyDate, JSVal.str (utf16 "2024-03-01")), (utf16 "predict", JSVal.num 4),
          (utf16 "train", JSVal.num 0)] m.method = some (JSVal.num n))) ∧
    (∃ d : JSString,
      (sortedDates [⟨utf16 "a", [⟨utf16 "d", 1⟩]⟩])[0]? = some d ∧
      (∃ m ∈ [(⟨utf16 "a", [⟨utf16 "d", 1⟩]⟩ : MethodHistory)], ∃ item ∈ m.history,
        item.date = d) ∧
      ((∀ m ∈ [(⟨utf16 "a", [⟨utf16 "d", 1⟩]⟩ : MethodHistory)], m.method ≠ keyDate) →
        getField [(keyDate, JSVal.str (utf16 "d")), (utf16 "a", JSVal.num 1)] keyDate
          = some (JSVal.str d)) ∧
      (∀ d', getField [(keyDate, JSVal.str (utf16 "d")), (utf16 "a", JSVal.num 1)] keyDate
          = some (JSVal.str d') → d' = d) ∧
      (∀ (pre post : List MethodHistory) (m : MethodHistory),
        [(⟨utf16 "a", [⟨utf16 "d", 1⟩]⟩ : MethodHistory)] = pre ++ m :: post →
        m.method ≠ keyProto →
        (∀ item ∈ m.history, item.date ≠ d) →
        (∀ m' ∈ post, m'.method = m.method → ∀ item ∈ m'.history, item.date ≠ d) →
        getField [(keyDate, JSVal.str (utf16 "d")), (utf16 "a", JSVal.num 1)] m.method
          = some (JSVal.num 0)) ∧
      (∀ m ∈ [(⟨utf16 "a", [⟨utf16 "d", 1⟩]⟩ : MethodHistory)], m.method ≠ keyProto →
        ∃ n, getField [(keyDate, JSVal.str (utf16 "d")), (utf16 "a", JSVal.num 1)] m.method
          = some (JSVal.num n))) :=
  ⟨formatChartData_zero_fill chartExample 1
      [(keyDate, JSVal.str (utf16 "2024-03-01")), (utf16 "predict", JSVal.num 4),
        (utf16 "train", JSVal.num 0)] (by decide),
   formatChartData_zero_fill [⟨utf16 "a", [⟨utf16 "d", 1⟩]⟩] 0
      [(keyDate, JSVal.str (utf16 "d")), (utf16 "a", JSVal.num 1)] (by decide)⟩

/-! ## Report filtering: the claim -/

/-- C3: `filteredReports` is the page of reports filtered, in the original order, by the
predicate: the lower-cased filter text is a substring of the lower-cased method or of the
lower-cased machine id, and the status filter is `all` or equals the status of the report.
With the empty filter text (which lower-cases to the empty string) and the status filter
`all`, it is the whole page. -/
theorem filteredReports_spec (toLowerCase : JSString → JSString) (reports : List Report)
    (filter statusFilter : JSString) :
    filteredReports toLowerCase reports filter statusFilter
      = reports.filter (fun report => decide
          ((toLowerCase filter <:+: toLowerCase report.method ∨
            toLowerCase filter <:+: toLowerCase report.machine_id) ∧
           (statusFilter = utf16 "all" ∨ report.status = statusFilter))) ∧
    (toLowerCase [] = [] → filteredReports toLowerCase reports [] (utf16 "all") = reports) := by
  constructor
  · unfold filteredReports
    apply List.filter_congr
    intro report _
    rw [Bool.eq_iff_iff]
    simp only [Bool.and_eq_true, Bool.or_eq_true, decide_eq_true_eq, includes_iff]
  · intro hempty
    unfold filteredReports
    rw [List.filter_eq_self]
    intro report _
    simp [hempty, includes_empty]

theorem filteredReports_spec_witness :
    filteredReports asciiToLowerCase reportsExample (utf16 "pRe") (utf16 "fail")
      = reportsExample.filter (fun report => decide
          ((asciiToLowerCase (utf16 "pRe") <:+: asciiToLowerCase report.method ∨
            asciiToLowerCase (utf16 "pRe") <:+: asciiToLowerCase report.machine_id) ∧
           (utf16 "fail" = utf16 "all" ∨ report.status = utf16 "fail"))) ∧
    filteredReports asciiToLowerCase reportsExample [] (utf16 "all") = reportsExample :=
  ⟨(filteredReports_spec asciiToLowerCase reportsExample (utf16 "pRe") (utf16 "fail")).1,
   (filteredReports_spec asciiToLowerCase reportsExample (utf16 "pRe") (utf16 "fail")).2
     (by decide)⟩

/-! ## Session handling: the claims -/

/-- C4: from every state, `logout` leaves `user = null`, `isAuthenticated = false`,
`token = null`, no `token` entry in local storage and no default Authorization header; it
takes no answer from the network and sends no request; a second `logout` changes nothing. -/
theorem logout_clears (w : AuthWorld) :
    (logout w).auth.user = none ∧
    (logout w).auth.isAuthenticated = false ∧
    (logout w).auth.token = none ∧
    (logout w).browser.localStorage.getItem keyToken = none ∧
    (logout w).browser.defaultHeaders.getItem keyAuthorization = none ∧
    (logout w).browser.sent = w.browser.sent ∧
    logout (logout w) = logout w := by
  refine ⟨rfl, rfl, rfl, ?_, ?_, rfl, ?_⟩
  · exact getItem_removeItem _ _
  · exact getItem_removeItem _ _
  · simp [logout, setAuthToken, truthy, removeItem_removeItem]

/-- C5: the rejected handler of the response interceptor always rejects with the error it was
given.  It dispatches a `storage` event exactly when the error carries a response with status
401, and then the `token` entry is removed from local storage and nothing else changes; for
every other error (another status, or no response) the browser is left as it was. -/
theorem responseErrorInterceptor_spec {δ : Type} (error : JSError) (b : Browser) :
    (@responseErrorInterceptor δ error b).2 = Except.error error ∧
    ((@responseErrorInterceptor δ error b).1.events = b.events ++ [utf16 "storage"]
      ↔ error.response = some { status := 401 }) ∧
    ((@responseErrorInterceptor δ error b).1 =
      if error.response = some { status := 401 } then
        { b with localStorage := b.localStorage.removeItem keyToken
                 events := b.events ++ [utf16 "storage"] }
      else b) ∧
    ((@responseErrorInterceptor δ error b).1.localStorage.getItem keyToken = none
      ∨ (@responseErrorInterceptor δ error b).1 = b) := by
  unfold responseErrorInterceptor
  cases hr : error.response with
  | none => simp
  | some response =>
    obtain ⟨status⟩ := response
    by_cases h : status = 401
    · subst h
      simp [getItem_removeItem]
    · simp [h]

/-- C6, as stated, fails on the code: `loginUser` is sent with the global `axios`, which has no
interceptor.  When the server answers the token request with 401, the token `abc` is still in
local storage, no event has been dispatched, and the call rejects with the error. -/
theorem client_401_counterexample :
    ((ClientCall.loginUser (utf16 "ann") (utf16 "wrong")).run (reject401 Unit)
        browserExample).1.localStorage.getItem keyToken = some (utf16 "abc") ∧
    ((ClientCall.loginUser (utf16 "ann") (utf16 "wrong")).run (reject401 Unit)
        browserExample).1.events = [] ∧
    ((ClientCall.loginUser (utf16 "ann") (utf16 "wrong")).run (reject401 Unit)
        browserExample).2 = Except.error error401 :=
  ⟨by decide, by decide, rfl⟩

/-- C6, amended: when the network answers with a 401 response, every call made through the
instance `api` (the request functions of services/api.js) removes the `token` entry from local
storage and dispatches one `storage` event; the three authentication calls of
services/auth.js, made with the global `axios`, leave local storage as it is and dispatch no
event. -/
theorem client_401 {δ : Type} (c : ClientCall) (t : Transport δ) (b : Browser) (e : JSError)
    (h401 : e.response = some { status := 401 }) (ht : ∀ cfg, t cfg = Except.error e) :
    (c.isAuthCall = false →
      (c.run t b).1.localStorage = b.localStorage.removeItem keyToken ∧
      (c.run t b).1.localStorage.getItem keyToken = none ∧
      (c.run t b).1.events = b.events ++ [utf16 "storage"]) ∧
    (c.isAuthCall = true →
      (c.run t b).1.localStorage = b.localStorage ∧ (c.run t b).1.events = b.events) := by
  have hapi : ∀ config : RequestConfig,
      (responseData (apiRequest t config b)).1.localStorage = b.localStorage.removeItem keyToken ∧
      (responseData (apiRequest t config b)).1.localStorage.getItem keyToken = none ∧
      (responseData (apiRequest t config b)).1.events = b.events ++ [utf16 "storage"] := by
    intro config
    obtain ⟨h1, h2⟩ := apiRequest_401 t config b e h401 ht
    refine ⟨h1, ?_, h2⟩
    unfold responseData
    simp only
    rw [h1]
    exact getItem_removeItem _ _
  have haxios : ∀ config : RequestConfig,
      (responseData (axiosRequest t config b)).1.localStorage = b.localStorage ∧
      (responseData (axiosRequest t config b)).1.events = b.events := by
    intro config
    exact ⟨(axiosRequest_frame t config b).1, (axiosRequest_frame t config b).2.1⟩
  cases c with
  | getModels => exact ⟨fun _ => hapi _, fun h => by simp [ClientCall.isAuthCall] at h⟩
  | createModel modelData => exact ⟨fun _ => hapi _, fun h => by simp [ClientCall.isAuthCall] at h⟩
  | getModel name => exact ⟨fun _ => hapi _, fun h => by simp [ClientCall.isAuthCall] at h⟩
  | updateModel name modelData =>
    exact ⟨fun _ => hapi _, fun h => by simp [ClientCall.isAuthCall] at h⟩
  | deleteModel name => exact ⟨fun _ => hapi _, fun h => by simp [ClientCall.isAuthCall] at h⟩
  | getUniqueUsers modelName =>
    exact ⟨fun _ => hapi _, fun h => by simp [ClientCall.isAuthCall] at h⟩
  | getMethodHistory modelName startDate endDate =>
    exact ⟨fun _ => hapi _, fun h => by simp [ClientCall.isAuthCall] at h⟩
  | getReports name page limit =>
    refine ⟨fun _ => ?_, fun h => by simp [ClientCall.isAuthCall] at h⟩
    obtain ⟨h1, h2⟩ := getReports_401 name page limit t b e h401 ht
    refine ⟨h1, ?_, h2⟩
    show (getReports name page limit t b).1.localStorage.getItem keyToken = none
    rw [h1]
    exact getItem_removeItem _ _
  | deleteReport reportId => exact ⟨fun _ => hapi _, fun h => by simp [ClientCall.isAuthCall] at h⟩
  | loginUser username password =>
    exact ⟨fun h => by simp [ClientCall.isAuthCall] at h, fun _ => haxios _⟩
  | registerUser username email password =>
    exact ⟨fun h => by simp [ClientCall.isAuthCall] at h, fun _ => haxios _⟩
  | getCurrentUser token =>
    exact ⟨fun h => by simp [ClientCall.isAuthCall] at h, fun _ => haxios _⟩

theorem client_401_witness :
    ((ClientCall.getModel (utf16 "resnet")).run (reject401 Model) browserExample).1.localStorage
        = [] ∧
    ((ClientCall.getModel (utf16 "resnet")).run (reject401 Model) browserExample).1.events
        = [utf16 "storage"] ∧
    ((ClientCall.getCurrentUser (utf16 "abc")).run (reject401 User) browserExample).1.localStorage
        = [(keyToken, utf16 "abc")] :=
  ⟨((client_401 (ClientCall.getModel (utf16 "resnet")) (reject401 Model) browserExample error401
      (by decide) (fun _ => rfl)).1 (by decide)).1,
   ((client_401 (ClientCall.getModel (utf16 "resnet")) (reject401 Model) browserExample error401
      (by decide) (fun _ => rfl)).1 (by decide)).2.2,
   ((client_401 (ClientCall.getCurrentUser (utf16 "abc")) (reject401 User) browserExample error401
      (by decide) (fun _ => rfl)).2 (by decide)).1⟩

/-- C7, as stated, fails on the code when the stored token is the empty string.  It is stored
and differs from the in-memory token `abc`, but `checkAuthStatus` does not adopt it: it
performs `logout`, which leaves the in-memory token null and removes the entry from local
storage, where adopting the stored token and loading the user with it would leave the
in-memory token empty and the entry in place. -/
theorem checkAuthStatus_counterexample :
    signedInEmptyToken.browser.localStorage.getItem keyToken = some [] ∧
    signedInEmptyToken.auth.token = some (utf16 "abc") ∧
    checkAuthStatus serveUser signedInEmptyToken = logout signedInEmptyToken ∧
    (checkAuthStatus serveUser signedInEmptyToken).auth.token = none ∧
    (checkAuthStatus serveUser signedInEmptyToken).browser.localStorage = [] ∧
    (loadUser (some []) serveUser
      { signedInEmptyToken with
          auth := { signedInEmptyToken.auth with token := some [] } }).auth.token = some [] ∧
    (loadUser (some []) serveUser
      { signedInEmptyToken with
          auth := { signedInEmptyToken.auth with token := some [] } }).browser.localStorage
        = [(keyToken, [])] := by
  decide

/-- C7, amended: on a storage event `checkAuthStatus` reads the `token` entry of local
storage.  If there is none, or it is the empty string, it performs `logout` (`user = null`,
`isAuthenticated = false`, `token = null`).  If a non-empty token is stored and differs from
the in-memory token, it adopts the stored token and loads the user with it.  If the stored
non-empty token equals the in-memory token, the state is left unchanged.  After a 401 handled
by the api client, the state it leaves has `isAuthenticated = false`. -/
theorem checkAuthStatus_spec {δ : Type} (t : Transport User) (w : AuthWorld) :
    (truthy (w.browser.localStorage.getItem keyToken) = false →
      checkAuthStatus t w = logout w ∧
      (checkAuthStatus t w).auth.user = none ∧
      (checkAuthStatus t w).auth.isAuthenticated = false ∧
      (checkAuthStatus t w).auth.token = none) ∧
    (truthy (w.browser.localStorage.getItem keyToken) = true →
      w.browser.localStorage.getItem keyToken ≠ w.auth.token →
      checkAuthStatus t w =
        loadUser (w.browser.localStorage.getItem keyToken) t
          { w with auth := { w.auth with token := w.browser.localStorage.getItem keyToken } }) ∧
    (truthy (w.browser.localStorage.getItem keyToken) = true →
      w.browser.localStorage.getItem keyToken = w.auth.token →
      checkAuthStatus t w = w) ∧
    (∀ (e : JSError) (b : Browser), e.response = some { status := 401 } →
      (checkAuthStatus t
        { auth := w.auth,
          browser := (@responseErrorInterceptor δ e b).1 }).auth.isAuthenticated = false) := by
  refine ⟨?_, ?_, ?_, ?_⟩
  · intro h
    have : checkAuthStatus t w = logout w := by
      unfold checkAuthStatus
      simp [h]
    rw [this]
    exact ⟨rfl, rfl, rfl, rfl⟩
  · intro h hne
    unfold checkAuthStatus
    simp [h, hne]
  · intro h heq
    have h2 : truthy w.auth.token = true := heq ▸ h
    unfold checkAuthStatus
    simp [heq, h2]
  · intro e b h401
    have hb : (@responseErrorInterceptor δ e b).1.localStorage.getItem keyToken = none := by
      unfold responseErrorInterceptor
      simp [h401, getItem_removeItem]
    unfold checkAuthStatus
    simp only [hb]
    simp [truthy, logout]

theorem checkAuthStatus_spec_witness :
    (checkAuthStatus serveUser signedInNoToken).auth.isAuthenticated = false ∧
    checkAuthStatus serveUser signedInOtherToken =
      loadUser (some (utf16 "xyz")) serveUser
        { signedInOtherToken with
            auth := { signedInOtherToken.auth with token := some (utf16 "xyz") } } ∧
    checkAuthStatus serveUser signedIn = signedIn ∧
    (checkAuthStatus serveUser
      { auth := signedIn.auth,
        browser := (@responseErrorInterceptor Unit error401 signedIn.browser).1
      }).auth.isAuthenticated = false :=
  ⟨((@checkAuthStatus_spec Unit serveUser signedInNoToken).1 (by decide)).2.2.1,
   (@checkAuthStatus_spec Unit serveUser signedInOtherToken).2.1 (by decide) (by decide),
   (@checkAuthStatus_spec Unit serveUser signedIn).2.2.1 (by decide) (by decide),
   (@checkAuthStatus_spec Unit serveUser signedIn).2.2.2 error401 signedIn.browser (by decide)⟩

/-- C8: on load the in-memory token is the `token` entry of local storage, and `loadUser` is
run with it.  Afterwards `loading = false`, and `isAuthenticated = true` exactly when the token
is non-empty and the current-user request succeeded; then `user` is the fetched user and the
token is kept in memory and in local storage.  When the request fails, the `token` entry is
removed from local storage, the in-memory token is null, `user = null` and
`isAuthenticated = false`.  When there is no token (or an empty one), no request is sent and
`user = null`, `isAuthenticated = false`. -/
theorem mountAuthProvider_spec (t : Transport User) (b : Browser) :
    (initialAuthState b).token = b.localStorage.getItem keyToken ∧
    mountAuthProvider t b
      = loadUser (b.localStorage.getItem keyToken) t { auth := initialAuthState b, browser := b } ∧
    (mountAuthProvider t b).auth.loading = false ∧
    ((mountAuthProvider t b).auth.isAuthenticated = true ↔
      truthy (b.localStorage.getItem keyToken) = true ∧
      ∃ u, (getCurrentUser ((b.localStorage.getItem keyToken).getD []) t
              (setAuthToken (b.localStorage.getItem keyToken) b)).2 = Except.ok u) ∧
    (∀ u, truthy (b.localStorage.getItem keyToken) = true →
      (getCurrentUser ((b.localStorage.getItem keyToken).getD []) t
        (setAuthToken (b.localStorage.getItem keyToken) b)).2 = Except.ok u →
      (mountAuthProvider t b).auth.user = some u ∧
      (mountAuthProvider t b).auth.isAuthenticated = true ∧
      (mountAuthProvider t b).auth.token = b.localStorage.getItem keyToken ∧
      (mountAuthProvider t b).browser.localStorage = b.localStorage) ∧
    (∀ e, truthy (b.localStorage.getItem keyToken) = true →
      (getCurrentUser ((b.localStorage.getItem keyToken).getD []) t
        (setAuthToken (b.localStorage.getItem keyToken) b)).2 = Except.error e →
      (mountAuthProvider t b).browser.localStorage = b.localStorage.removeItem keyToken ∧
      (mountAuthProvider t b).browser.localStorage.getItem keyToken = none ∧
      (mountAuthProvider t b).auth.token = none ∧
      (mountAuthProvider t b).auth.user = none ∧
      (mountAuthProvider t b).auth.isAuthenticated = false) ∧
    (truthy (b.localStorage.getItem keyToken) = false →
      (mountAuthProvider t b).browser.sent = b.sent ∧
      (mountAuthProvider t b).browser.localStorage = b.localStorage ∧
      (mountAuthProvider t b).auth.user = none ∧
      (mountAuthProvider t b).auth.isAuthenticated = false) := by
  have hframe := getCurrentUser_frame ((b.localStorage.getItem keyToken).getD []) t
    (setAuthToken (b.localStorage.getItem keyToken) b)
  have hset := setAuthToken_localStorage (b.localStorage.getItem keyToken) b
  have hok : ∀ u, truthy (b.localStorage.getItem keyToken) = true →
      (getCurrentUser ((b.localStorage.getItem keyToken).getD []) t
        (setAuthToken (b.localStorage.getItem keyToken) b)).2 = Except.ok u →
      (mountAuthProvider t b).auth.user = some u ∧
      (mountAuthProvider t b).auth.isAuthenticated = true ∧
      (mountAuthProvider t b).auth.token = b.localStorage.getItem keyToken ∧
      (mountAuthProvider t b).auth.loading = false ∧
      (mountAuthProvider t b).browser.localStorage = b.localStorage := by
    intro u htok hres
    have h := (loadUser_truthy (b.localStorage.getItem keyToken) t
      { auth := initialAuthState b, browser := b } htok).1 u hres
    unfold mountAuthProvider
    rw [show (initialAuthState b).token = b.localStorage.getItem keyToken from rfl, h]
    refine ⟨rfl, rfl, rfl, rfl, ?_⟩
    show (getCurrentUser _ t (setAuthToken _ b)).1.localStorage = b.localStorage
    rw [hframe.1, hset.1]
  have herr : ∀ e, truthy (b.localStorage.getItem keyToken) = true →
      (getCurrentUser ((b.localStorage.getItem keyToken).getD []) t
        (setAuthToken (b.localStorage.getItem keyToken) b)).2 = Except.error e →
      (mountAuthProvider t b).browser.localStorage = b.localStorage.removeItem keyToken ∧
      (mountAuthProvider t b).auth.token = none ∧
      (mountAuthProvider t b).auth.user = none ∧
      (mountAuthProvider t b).auth.isAuthenticated = false ∧
      (mountAuthProvider t b).auth.loading = false := by
    intro e htok hres
    have h := (loadUser_truthy (b.localStorage.getItem keyToken) t
      { auth := initialAuthState b, browser := b } htok).2 e hres
    unfold mountAuthProvider
    rw [show (initialAuthState b).token = b.localStorage.getItem keyToken from rfl, h]
    refine ⟨?_, rfl, rfl, rfl, rfl⟩
    show (getCurrentUser _ t (setAuthToken _ b)).1.localStorage.removeItem keyToken
      = b.localStorage.removeItem keyToken
    rw [hframe.1, hset.1]
  have hno : truthy (b.localStorage.getItem keyToken) = false →
      mountAuthProvider t b =
        { auth := { initialAuthState b with isAuthenticated := false, user := none,
                                            loading := false },
          browser := b } := by
    intro htok
    unfold mountAuthProvider
    rw [show (initialAuthState b).token = b.localStorage.getItem keyToken from rfl,
      loadUser_falsy _ t _ htok]
  refine ⟨rfl, rfl, ?_, ?_, ?_, ?_, ?_⟩
  · cases htok : truthy (b.localStorage.getItem keyToken) with
    | false => rw [hno htok]
    | true =>
      cases hres : (getCurrentUser ((b.localStorage.getItem keyToken).getD []) t
          (setAuthToken (b.localStorage.getItem keyToken) b)).2 with
      | ok u => exact (hok u htok hres).2.2.2.1
      | error e => exact (herr e htok hres).2.2.2.2
  · constructor
    · intro hauth
      cases htok : truthy (b.localStorage.getItem keyToken) with
      | false =>
        rw [hno htok] at hauth
        simp at hauth
      | true =>
        refine ⟨rfl, ?_⟩
        cases hres : (getCurrentUser ((b.localStorage.getItem keyToken).getD []) t
            (setAuthToken (b.localStorage.getItem keyToken) b)).2 with
        | ok u => exact ⟨u, rfl⟩
        | error e =>
          rw [(herr e htok hres).2.2.2.1] at hauth
          simp at hauth
    · rintro ⟨htok, u, hres⟩
      exact (hok u htok hres).2.1
  · intro u htok hres
    obtain ⟨h1, h2, h3, _, h5⟩ := hok u htok hres
    exact ⟨h1, h2, h3, h5⟩
  · intro e htok hres
    obtain ⟨h1, h2, h3, h4, _⟩ := herr e htok hres
    refine ⟨h1, ?_, h2, h3, h4⟩
    rw [h1]
    exact getItem_removeItem _ _
  · intro htok
    rw [hno htok]
    exact ⟨rfl, rfl, rfl, rfl⟩

theorem mountAuthProvider_spec_witness :
    ((mountAuthProvider serveUser browserExample).auth.user = some userExample ∧
      (mountAuthProvider serveUser browserExample).auth.isAuthenticated = true ∧
      (mountAuthProvider serveUser browserExample).auth.token = some (utf16 "abc") ∧
      (mountAuthProvider serveUser browserExample).browser.localStorage
        = [(keyToken, utf16 "abc")]) ∧
    ((mountAuthProvider (reject401 User) browserExample).browser.localStorage = [] ∧
      (mountAuthProvider (reject401 User) browserExample).auth.token = none ∧
      (mountAuthProvider (reject401 User) browserExample).auth.isAuthenticated = false) ∧
    ((mountAuthProvider serveUser { browserExample with localStorage := [] }).browser.sent = [] ∧
      (mountAuthProvider serveUser { browserExample with localStorage := [] }).auth.isAuthenticated
        = false) :=
  ⟨(mountAuthProvider_spec serveUser browserExample).2.2.2.2.1 userExample (by decide) rfl,
   ⟨((mountAuthProvider_spec (reject401 User) browserExample).2.2.2.2.2.1 error401
        (by decide) rfl).1,
    ((mountAuthProvider_spec (reject401 User) browserExample).2.2.2.2.2.1 error401
        (by decide) rfl).2.2.1,
    ((mountAuthProvider_spec (reject401 User) browserExample).2.2.2.2.2.1 error401
        (by decide) rfl).2.2.2.2⟩,
   ⟨((mountAuthProvider_spec serveUser { browserExample with localStorage := [] }).2.2.2.2.2.2
        (by decide)).1,
    ((mountAuthProvider_spec serveUser { browserExample with localStorage := [] }).2.2.2.2.2.2
        (by decide)).2.2.2⟩⟩

/-- C9: the request interceptor reads the `token` entry of local storage.  When it is present
and non-empty, the Authorization header of the configuration is set to `Bearer ` followed by
the token, and every other header is as before; otherwise the configuration is returned
unchanged.  In both cases every field other than the headers is unchanged. -/
theorem requestInterceptor_spec (b : Browser) (config : RequestConfig) :
    (∀ token, b.localStorage.getItem keyToken = some token → token ≠ [] →
      (requestInterceptor b config).headers.getItem keyAuthorization
        = some (utf16 "Bearer " ++ token) ∧
      ∀ k, k ≠ keyAuthorization →
        (requestInterceptor b config).headers.getItem k = config.headers.getItem k) ∧
    ((b.localStorage.getItem keyToken = none ∨ b.localStorage.getItem keyToken = some []) →
      requestInterceptor b config = config) ∧
    (requestInterceptor b config).method = config.method ∧
    (requestInterceptor b config).baseURL = config.baseURL ∧
    (requestInterceptor b config).url = config.url ∧
    (requestInterceptor b config).params = config.params ∧
    (requestInterceptor b config).data = config.data := by
  have hfields : ∀ c : RequestConfig,
      c = requestInterceptor b config →
      c.method = config.method ∧ c.baseURL = config.baseURL ∧ c.url = config.url ∧
      c.params = config.params ∧ c.data = config.data := by
    intro c hc
    unfold requestInterceptor at hc
    simp only at hc
    split at hc <;> subst hc <;> exact ⟨rfl, rfl, rfl, rfl, rfl⟩
  refine ⟨?_, ?_, hfields _ rfl⟩
  · intro token hstored hne
    have htruthy : truthy (some token) = true := by
      cases token with
      | nil => exact absurd rfl hne
      | cons c rest => rfl
    unfold requestInterceptor
    simp only [hstored, htruthy, if_true, Option.getD_some]
    constructor
    · rw [getItem_setItem]
      simp [bearer]
    · intro k hk
      rw [getItem_setItem]
      simp [Ne.symm hk]
  · intro hnone
    unfold requestInterceptor
    rcases hnone with h | h <;> simp [h, truthy]

theorem requestInterceptor_spec_witness :
    ((requestInterceptor browserExample
        (request (utf16 "get") (utf16 "/models"))).headers.getItem keyAuthorization
      = some (utf16 "Bearer abc") ∧
      ∀ k, k ≠ keyAuthorization →
        (requestInterceptor browserExample
          (request (utf16 "get") (utf16 "/models"))).headers.getItem k
        = (request (utf16 "get") (utf16 "/models")).headers.getItem k) ∧
    requestInterceptor { browserExample with localStorage := [(keyToken, [])] }
        (request (utf16 "get") (utf16 "/models"))
      = request (utf16 "get") (utf16 "/models") :=
  ⟨(requestInterceptor_spec browserExample (request (utf16 "get") (utf16 "/models"))).1
      (utf16 "abc") (by decide) (by decide),
   (requestInterceptor_spec { browserExample with localStorage := [(keyToken, [])] }
      (request (utf16 "get") (utf16 "/models"))).2.1 (Or.inr (by decide))⟩

/-! ## Failure handling in the views: the claim -/

/-- C10, as stated, fails on the code for `fetchModel`, which makes three requests and keeps
what the earlier ones returned.  From the same state, a failure of the first request leaves
`model = null`, and a failure of the second request leaves the model that the first one
returned: two failures of the same call leave different view states.  Both leave the same
error text and `loading = false`. -/
theorem fetchModel_failures_counterexample :
    ((fetchModel (Except.error networkError) (Except.ok 3) (Except.ok [])).runFrom
        modelDetailsInitial).2.model = none ∧
    ((fetchModel (Except.ok modelExample) (Except.error networkError) (Except.ok [])).runFrom
        modelDetailsInitial).2.model = some modelExample ∧
    ((fetchModel (Except.error networkError) (Except.ok 3) (Except.ok [])).runFrom
        modelDetailsInitial).2 ≠
      ((fetchModel (Except.ok modelExample) (Except.error networkError) (Except.ok [])).runFrom
        modelDetailsInitial).2 := by
  decide

/-- C10, amended: a failure never escapes the handler, and the view state it leaves does not
depend on the error.  `fetchModels` sets `error = 'Failed to fetch models'` and
`loading = false` and leaves the rest, the model list included, unchanged.  `fetchReports` sets
`error = 'Failed to fetch reports'`, `reports = []`, `hasMore = false` and `loading = false`.
`fetchModel` sets `error = 'Failed to fetch model details'` and `loading = false`, and in
addition has stored the results of the requests that succeeded before the failing one: nothing
if `getModel` failed, the model if `getUniqueUsers` failed, the model and the number of unique
users if `getMethodHistory` failed. -/
theorem fetch_failure (e : JSError) :
    (∀ s : ModelListState,
      (fetchModels (Except.error e)).runFrom s =
        (Except.ok (), { s with error := utf16 "Failed to fetch models", loading := false })) ∧
    (∀ s : ReportBrowserState,
      (fetchReports (Except.error e)).runFrom s =
        (Except.ok (), { s with error := some (utf16 "Failed to fetch reports"), reports := [],
                                hasMore := false, loading := false })) ∧
    (∀ (s : ModelDetailsState) r2 r3,
      (fetchModel (Except.error e) r2 r3).runFrom s =
        (Except.ok (), { s with error := utf16 "Failed to fetch model details",
                                loading := false })) ∧
    (∀ (s : ModelDetailsState) data r3,
      (fetchModel (Except.ok data) (Except.error e) r3).runFrom s =
        (Except.ok (), { s with model := some data,
                                error := utf16 "Failed to fetch model details",
                                loading := false })) ∧
    (∀ (s : ModelDetailsState) data users,
      (fetchModel (Except.ok data) (Except.ok users) (Except.error e)).runFrom s =
        (Except.ok (), { s with model := some data, uniqueUsers := users,
                                error := utf16 "Failed to fetch model details",
                                loading := false })) :=
  ⟨fun _ => rfl, fun _ => rfl, fun _ _ _ => rfl, fun _ _ _ => rfl, fun _ _ _ => rfl⟩

/-! ## Pagination: the claims -/

/-- C11, as stated, fails on the code for large arguments, because `(page-1) * limit` is
computed on doubles.  For `page = 94906268` and `limit = 94906267` the product is
9007199515875289, which is above `2 ^ 53` and is not a double: the request carries
`skip=9007199515875288`.  The request for the next page carries `skip=9007199610781556`, one
more than the end 9007199610781555 of the range of this page, so the ranges of the two pages
are not adjacent. -/
theorem getReports_request_counterexample :
    ((getReports (utf16 "resnet") 94906268 94906267 (reject401 ReportsPayload)
        browserExample).1.sent.map fun config => config.params.getItem (utf16 "skip"))
      = [some (utf16 "9007199515875288")] ∧
    decimal ((94906268 - 1) * 94906267) = utf16 "9007199515875289" ∧
    ((getReports (utf16 "resnet") (94906268 + 1) 94906267 (reject401 ReportsPayload)
        browserExample).1.sent.map fun config => config.params.getItem (utf16 "skip"))
      = [some (utf16 "9007199610781556")] ∧
    decimal (9007199515875288 + 94906267) = utf16 "9007199610781555" := by
  decide

/-- C11, amended: for integers `page ≥ 1` and `limit ≥ 1` with `(page + 1) * limit ≤ 2 ^ 53`,
`getReports` sends one request, `GET /reports/{name}`, whose parameters are the decimal
numerals of `limit` and of `skip = (page - 1) * limit`, with `skip ≥ 0`.  For page 1 the offset
is 0, and the request for page `page + 1` starts at `skip + limit`, where the range
`[skip, skip + limit)` of page `page` ends, so the ranges of the two pages are adjacent and
share no offset.  With both arguments omitted the parameters are `skip=0` and `limit=10`. -/
theorem getReports_request {δ : Type} (name : JSString) (page limit : Int) (t : Transport δ)
    (b : Browser) (hpage : 1 ≤ page) (hlimit : 1 ≤ limit)
    (hsafe : (page + 1) * limit ≤ 2 ^ 53) :
    ∃ skip : Int,
      skip = (page - 1) * limit ∧ 0 ≤ skip ∧ (page = 1 → skip = 0) ∧
      (getReports name page limit t b).1.sent
        = b.sent ++
          [requestInterceptor b
            { method := utf16 "get", baseURL := API_URL b, url := utf16 "/reports/" ++ name,
              headers := [],
              params := [(utf16 "skip", decimal skip), (utf16 "limit", decimal limit)],
              data := [] }] ∧
      (getReports name (page + 1) limit t b).1.sent
        = b.sent ++
          [requestInterceptor b
            { method := utf16 "get", baseURL := API_URL b, url := utf16 "/reports/" ++ name,
              headers := [],
              params := [(utf16 "skip", decimal (skip + limit)), (utf16 "limit", decimal limit)],
              data := [] }] ∧
      (∀ offset : Int, skip ≤ offset ∧ offset < skip + limit →
        ¬ (skip + limit ≤ offset ∧ offset < skip + limit + limit)) ∧
      skip < skip + limit ∧
      (getReportsWith name none none t b).1.sent
        = b.sent ++
          [requestInterceptor b
            { method := utf16 "get", baseURL := API_URL b, url := utf16 "/reports/" ++ name,
              headers := [],
              params := [(utf16 "skip", utf16 "0"), (utf16 "limit", utf16 "10")],
              data := [] }] := by
  have hthis : page * limit ≤ 2 ^ 53 := by nlinarith
  obtain ⟨hskip, hlim, hs0, hs, hl⟩ := reportsSkip_safe page limit hpage hlimit hthis
  obtain ⟨hnext', _, _, hnext_le', _⟩ :=
    reportsSkip_safe (page + 1) limit (by omega) hlimit hsafe
  have e : (page + 1 - 1) * limit = (page - 1) * limit + limit := by ring
  have hnext : reportsSkip (page + 1) limit = JSNumber.int ((page - 1) * limit + limit) := by
    rw [hnext', e]
  have hnext_le : (page - 1) * limit + limit ≤ 2 ^ 53 := by
    rw [← e]
    exact hnext_le'
  refine ⟨(page - 1) * limit, rfl, hs0, ?_, ?_, ?_, ?_, ?_, ?_⟩
  · intro h
    rw [h]
    simp
  · rw [getReports_sent name page limit t b, hskip, hlim,
      numberToString_safe _ hs0 hs, numberToString_safe limit (by omega) hl]
  · rw [getReports_sent name (page + 1) limit t b, hnext, hlim,
      numberToString_safe _ (by omega) hnext_le, numberToString_safe limit (by omega) hl]
  · intro offset h1 h2
    omega
  · omega
  · exact getReports_sent name 1 10 t b

theorem getReports_request_witness :
    ∃ skip : Int,
      skip = (3 - 1) * 10 ∧ 0 ≤ skip ∧ ((3 : Int) = 1 → skip = 0) ∧
      (getReports (utf16 "resnet") 3 10 (reject401 ReportsPayload) browserExample).1.sent
        = browserExample.sent ++
          [requestInterceptor browserExample
            { method := utf16 "get", baseURL := API_URL browserExample,
              url := utf16 "/reports/" ++ utf16 "resnet",
              headers := [],
              params := [(utf16 "skip", decimal skip), (utf16 "limit", decimal 10)],
              data := [] }] ∧
      (getReports (utf16 "resnet") (3 + 1) 10 (reject401 ReportsPayload) browserExample).1.sent
        = browserExample.sent ++
          [requestInterceptor browserExample
            { method := utf16 "get", baseURL := API_URL browserExample,
              url := utf16 "/reports/" ++ utf16 "resnet",
              headers := [],
              params := [(utf16 "skip", decimal (skip + 10)), (utf16 "limit", decimal 10)],
              data := [] }] ∧
      (∀ offset : Int, skip ≤ offset ∧ offset < skip + 10 →
        ¬ (skip + 10 ≤ offset ∧ offset < skip + 10 + 10)) ∧
      skip < skip + 10 ∧
      (getReportsWith (utf16 "resnet") none none (reject401 ReportsPayload) browserExample).1.sent
        = browserExample.sent ++
          [requestInterceptor browserExample
            { method := utf16 "get", baseURL := API_URL browserExample,
              url := utf16 "/reports/" ++ utf16 "resnet",
              headers := [],
              params := [(utf16 "skip", utf16 "0"), (utf16 "limit", utf16 "10")],
              data := [] }] :=
  getReports_request (utf16 "resnet") 3 10 (reject401 ReportsPayload) browserExample
    (by decide) (by decide) (by decide)

/-- C13: a successful `fetchReports` with page size `limit > 0` completes normally, leaves the
page number as it was, and sets `hasMore` to true exactly when the response is an array of
exactly `limit` reports.  An array of fewer reports, and a response that is not an array (then
`reports = []`), give `hasMore = false`.  The page count of the pagination control is then
`page + 1` when `hasMore` and `page` otherwise, never less than the current page. -/
theorem fetchReports_hasMore (s : ReportBrowserState) (response : ReportsPayload)
    (hlimit : 0 < s.limit) :
    ((fetchReports (Except.ok response)).runFrom s).1 = Except.ok () ∧
    ((fetchReports (Except.ok response)).stateAfter s).page = s.page ∧
    (((fetchReports (Except.ok response)).stateAfter s).hasMore = true ↔
      ∃ reports, response = ReportsPayload.array reports ∧ (reports.length : Int) = s.limit) ∧
    (∀ reports, response = ReportsPayload.array reports →
      ((fetchReports (Except.ok response)).stateAfter s).reports = reports ∧
      ((reports.length : Int) < s.limit →
        ((fetchReports (Except.ok response)).stateAfter s).hasMore = false)) ∧
    (response = ReportsPayload.other →
      ((fetchReports (Except.ok response)).stateAfter s).reports = [] ∧
      ((fetchReports (Except.ok response)).stateAfter s).hasMore = false) ∧
    paginationCount ((fetchReports (Except.ok response)).stateAfter s)
      = (if ((fetchReports (Except.ok response)).stateAfter s).hasMore then s.page + 1
         else s.page) ∧
    ((fetchReports (Except.ok response)).stateAfter s).page
      ≤ paginationCount ((fetchReports (Except.ok response)).stateAfter s) := by
  cases response with
  | array reports =>
    have hs : (fetchReports (Except.ok (ReportsPayload.array reports))).stateAfter s =
        { s with reports := reports, hasMore := decide ((reports.length : Int) = s.limit),
                 error := none, loading := false } := rfl
    rw [hs]
    refine ⟨rfl, rfl, ?_, ?_, ?_, ?_, ?_⟩
    · simp
    · intro reports' h
      injection h with h
      subst h
      refine ⟨rfl, ?_⟩
      intro hlt
      have : (reports.length : Int) ≠ s.limit := by omega
      simp [this]
    · intro h
      cases h
    · simp only [paginationCount]
      split <;> simp
    · simp only [paginationCount]
      split <;> omega
  | other =>
    have hs : (fetchReports (Except.ok ReportsPayload.other)).stateAfter s =
        { s with reports := [], hasMore := decide (((([] : List Report).length : Nat) : Int) = s.limit),
                 error := none, loading := false } := rfl
    have hne : ¬ (((([] : List Report).length : Nat) : Int) = s.limit) := by
      simp only [List.length_nil, Nat.cast_zero]
      omega
    rw [hs]
    refine ⟨rfl, rfl, ?_, ?_, ?_, ?_, ?_⟩
    · simp only [hne, decide_False]
      simp
    · intro reports' h
      cases h
    · intro _
      exact ⟨rfl, by simp only [hne, decide_False]⟩
    · simp only [paginationCount, hne, decide_False]
      simp
    · simp only [paginationCount, hne, decide_False]
      simp

theorem fetchReports_hasMore_witness :
    ((fetchReports (Except.ok (ReportsPayload.array tenReports))).stateAfter
        reportBrowserInitial).hasMore = true ∧
    paginationCount ((fetchReports (Except.ok (ReportsPayload.array tenReports))).stateAfter
        reportBrowserInitial) = 2 ∧
    ((fetchReports (Except.ok ReportsPayload.other)).stateAfter reportBrowserInitial).hasMore
      = false :=
  ⟨(fetchReports_hasMore reportBrowserInitial (ReportsPayload.array tenReports)
      (by decide)).2.2.1.mpr ⟨tenReports, rfl, by decide⟩,
   by decide,
   ((fetchReports_hasMore reportBrowserInitial ReportsPayload.other (by decide)).2.2.2.2.1
      rfl).2⟩

/-! ## Deleting from the model list: the claim -/

/-- C17: with a model selected for deletion, a confirmed delete that succeeds replaces the
list by the list of the models whose name differs from the name of the deleted model, in their
original order, closes the dialog and changes nothing else; a delete that fails sets
`error = 'Failed to delete model'` and changes nothing else, so the list is unchanged and the
dialog stays open.  In both cases the handler completes normally. -/
theorem handleDeleteConfirm_spec (s : ModelListState) (modelToDelete : Model)
    (hsel : s.modelToDelete = some modelToDelete) :
    ((handleDeleteConfirm (Except.ok ())).runFrom s =
        (Except.ok (),
         { s with models := s.models.filter fun model => decide (model.name ≠ modelToDelete.name),
                  openDeleteDialog := false }) ∧
      ((handleDeleteConfirm (Except.ok ())).stateAfter s).models.Sublist s.models ∧
      ∀ model, model ∈ ((handleDeleteConfirm (Except.ok ())).stateAfter s).models ↔
        model ∈ s.models ∧ model.name ≠ modelToDelete.name) ∧
    (∀ e,
      (handleDeleteConfirm (Except.error e)).runFrom s =
        (Except.ok (), { s with error := utf16 "Failed to delete model" }) ∧
      ((handleDeleteConfirm (Except.error e)).stateAfter s).models = s.models ∧
      ((handleDeleteConfirm (Except.error e)).stateAfter s).openDeleteDialog
        = s.openDeleteDialog) := by
  obtain ⟨models, error, loading, openDeleteDialog, sel⟩ := s
  simp only at hsel
  subst hsel
  constructor
  · have hrun : (handleDeleteConfirm (Except.ok ())).runFrom
          { models := models, error := error, loading := loading,
            openDeleteDialog := openDeleteDialog, modelToDelete := some modelToDelete } =
        (Except.ok (),
         { models := models.filter fun model => decide (model.name ≠ modelToDelete.name),
           error := error, loading := loading, openDeleteDialog := false,
           modelToDelete := some modelToDelete }) := rfl
    refine ⟨hrun, ?_, ?_⟩
    · simp only [Handler.stateAfter, hrun]
      exact List.filter_sublist _
    · intro model
      simp only [Handler.stateAfter, hrun]
      simp [List.mem_filter]
  · intro e
    exact ⟨rfl, rfl, rfl⟩

theorem handleDeleteConfirm_spec_witness :
    ((handleDeleteConfirm (Except.ok ())).stateAfter modelListDeleting).models.Sublist
        [modelExample, modelExample2] ∧
    (handleDeleteConfirm (Except.error networkError)).runFrom modelListDeleting =
        (Except.ok (), { modelListDeleting with error := utf16 "Failed to delete model" }) ∧
    ((handleDeleteConfirm (Except.ok ())).stateAfter modelListDeleting).models = [modelExample2] ∧
    ((handleDeleteConfirm (Except.ok ())).stateAfter modelListDeleting).openDeleteDialog
        = false ∧
    ((handleDeleteConfirm (Except.error networkError)).stateAfter
        modelListDeleting).openDeleteDialog = true :=
  ⟨(handleDeleteConfirm_spec modelListDeleting modelExample rfl).1.2.1,
   ((handleDeleteConfirm_spec modelListDeleting modelExample rfl).2 networkError).1,
   by decide, by decide, by decide⟩

/-! ## Routing: the claim -/

/-- C15: while `loading` is true, `App` renders the placeholder and no route, whatever the
location and the authentication flag.  Otherwise: with `isAuthenticated` false the elements of
the routes `/`, `/models/new` and `/models/:name` are redirects to `/login`, the locations `/`,
`/models/new` and `/models/{name}` render that redirect, and no location renders ModelList,
ModelForm or ModelDetails; with `isAuthenticated` true the elements of the routes `/login` and
`/register` are redirects to `/`, the locations `/login` and `/register` render that redirect,
and no location renders Login or Register. -/
theorem appRender_guards (isAuthenticated : Bool) (pathname : JSString) :
    appRender isAuthenticated true pathname = Rendered.loadingPlaceholder ∧
    (∀ r ∈ appRoutes,
      r.path = utf16 "/" ∨ r.path = utf16 "/models/new" ∨ r.path = utf16 "/models/:name" →
      r.element false = Element.navigate (utf16 "/login")) ∧
    (∀ r ∈ appRoutes, r.path = utf16 "/login" ∨ r.path = utf16 "/register" →
      r.element true = Element.navigate (utf16 "/")) ∧
    appRender false false (utf16 "/")
      = Rendered.layout (some (Element.navigate (utf16 "/login"))) ∧
    appRender false false (utf16 "/models/new")
      = Rendered.layout (some (Element.navigate (utf16 "/login"))) ∧
    (∀ name : JSString, name ≠ [] → 47 ∉ name →
      appRender false false (utf16 "/models/" ++ name)
        = Rendered.layout (some (Element.navigate (utf16 "/login")))) ∧
    appRender true false (utf16 "/login")
      = Rendered.layout (some (Element.navigate (utf16 "/"))) ∧
    appRender true false (utf16 "/register")
      = Rendered.layout (some (Element.navigate (utf16 "/"))) ∧
    (appRender false false pathname ≠ Rendered.layout (some Element.modelList) ∧
      appRender false false pathname ≠ Rendered.layout (some Element.modelForm) ∧
      appRender false false pathname ≠ Rendered.layout (some Element.modelDetails)) ∧
    (appRender true false pathname ≠ Rendered.layout (some Element.login) ∧
      appRender true false pathname ≠ Rendered.layout (some Element.register)) := by
  have hroutes : ∀ r ∈ appRoutes,
      r = routeLogin ∨ r = routeRegister ∨ r = routeRoot ∨ r = routeModelNew ∨
        r = routeModelDetails := by
    intro r hr
    simpa [appRoutes] using hr
  refine ⟨rfl, ?_, ?_, by decide, by decide, ?_, by decide, by decide, ?_, ?_⟩
  · intro r hr hpath
    rcases hroutes r hr with rfl | rfl | rfl | rfl | rfl
    · revert hpath
      decide
    · revert hpath
      decide
    · rfl
    · rfl
    · rfl
  · intro r hr hpath
    rcases hroutes r hr with rfl | rfl | rfl | rfl | rfl
    · rfl
    · rfl
    · revert hpath
      decide
    · revert hpath
      decide
    · revert hpath
      decide
  · intro name hne hslash
    have hd := matchPath_modelDetails name hne hslash
    unfold appRender matchRoutes
    rw [rankRoutes_appRoutes]
    simp only [Bool.false_eq_true, if_false]
    cases hnew : matchPath routeModelNew.path (utf16 "/models/" ++ name) with
    | true =>
      simp only [List.find?, hnew]
      rfl
    | false =>
      simp only [List.find?, hnew, hd]
      rfl
  · cases h : matchRoutes appRoutes pathname with
    | none =>
      simp [appRender, h]
    | some r =>
      have hr := (matchRoutes_mem appRoutes pathname r h).1
      rcases hroutes r hr with rfl | rfl | rfl | rfl | rfl <;>
        simp [appRender, h, routeLogin, routeRegister, routeRoot, routeModelNew,
          routeModelDetails]
  · cases h : matchRoutes appRoutes pathname with
    | none =>
      simp [appRender, h]
    | some r =>
      have hr := (matchRoutes_mem appRoutes pathname r h).1
      rcases hroutes r hr with rfl | rfl | rfl | rfl | rfl <;>
        simp [appRender, h, routeLogin, routeRegister, routeRoot, routeModelNew,
          routeModelDetails]

theorem appRender_guards_witness :
    appRender false false (utf16 "/models/" ++ utf16 "resnet")
      = Rendered.layout (some (Element.navigate (utf16 "/login"))) ∧
    routeModelDetails.element false = Element.navigate (utf16 "/login") ∧
    routeRegister.element true = Element.navigate (utf16 "/") :=
  ⟨(appRender_guards false (utf16 "/models/resnet")).2.2.2.2.2.1 (utf16 "resnet")
      (by decide) (by decide),
   (appRender_guards false (utf16 "/models/resnet")).2.1 routeModelDetails
      (by simp [appRoutes]) (Or.inr (Or.inr rfl)),
   (appRender_guards true (utf16 "/register")).2.2.1 routeRegister
      (by simp [appRoutes]) (Or.inr rfl)⟩

/-! ## Logging in: the claim -/

/-- C16: `login` returns true exactly when the token request succeeds and false exactly when it
fails.  On failure the auth state and local storage are as before.  On success the access token
is written to local storage and adopted as the in-memory token, and `loadUser` is run from the
world in which the token is already stored.  When the current-user request that follows fails,
`login` still returns true, the `token` entry has been removed from local storage again, the
in-memory token is null and `isAuthenticated` is false. -/
theorem login_spec (username password : JSString) (tLogin : Transport TokenData)
    (tUser : Transport User) (w : AuthWorld) :
    ((login username password tLogin tUser w).2 = true ↔
      ∃ data, (loginUser username password tLogin w.browser).2 = Except.ok data) ∧
    ((login username password tLogin tUser w).2 = false ↔
      ∃ e, (loginUser username password tLogin w.browser).2 = Except.error e) ∧
    (∀ e, (loginUser username password tLogin w.browser).2 = Except.error e →
      (login username password tLogin tUser w).1.auth = w.auth ∧
      (login username password tLogin tUser w).1.browser.localStorage
        = w.browser.localStorage) ∧
    (∀ data, (loginUser username password tLogin w.browser).2 = Except.ok data →
      (login username password tLogin tUser w).1 =
        loadUser (some data.access_token) tUser
          { auth := { w.auth with token := some data.access_token },
            browser := storeToken data.access_token
              (loginUser username password tLogin w.browser).1 } ∧
      (storeToken data.access_token
        (loginUser username password tLogin w.browser).1).localStorage.getItem keyToken
          = some data.access_token) ∧
    (∀ data e, (loginUser username password tLogin w.browser).2 = Except.ok data →
      data.access_token ≠ [] →
      (getCurrentUser data.access_token tUser
        (setAuthToken (some data.access_token)
          (storeToken data.access_token
            (loginUser username password tLogin w.browser).1))).2 = Except.error e →
      (login username password tLogin tUser w).2 = true ∧
      (login username password tLogin tUser w).1.browser.localStorage.getItem keyToken = none ∧
      (login username password tLogin tUser w).1.auth.token = none ∧
      (login username password tLogin tUser w).1.auth.user = none ∧
      (login username password tLogin tUser w).1.auth.isAuthenticated = false) := by
  refine ⟨?_, ?_, ?_, ?_, ?_⟩
  · cases hres : (loginUser username password tLogin w.browser).2 with
    | ok data =>
      rw [login_ok username password tLogin tUser w data hres]
      simp
    | error e =>
      rw [login_error username password tLogin tUser w e hres]
      simp
  · cases hres : (loginUser username password tLogin w.browser).2 with
    | ok data =>
      rw [login_ok username password tLogin tUser w data hres]
      simp
    | error e =>
      rw [login_error username password tLogin tUser w e hres]
      simp
  · intro e hres
    rw [login_error username password tLogin tUser w e hres]
    exact ⟨rfl, (loginUser_frame username password tLogin w.browser).1⟩
  · intro data hres
    rw [login_ok username password tLogin tUser w data hres]
    refine ⟨rfl, ?_⟩
    unfold storeToken
    simp only
    rw [getItem_setItem]
    simp
  · intro data e hres hne hfail
    rw [login_ok username password tLogin tUser w data hres]
    have htruthy : truthy (some data.access_token) = true := by
      cases hd : data.access_token with
      | nil => exact absurd hd hne
      | cons c rest => rfl
    have hload := (loadUser_truthy (some data.access_token) tUser
      { auth := { w.auth with token := some data.access_token },
        browser := storeToken data.access_token
          (loginUser username password tLogin w.browser).1 } htruthy).2 e hfail
    simp only
    rw [hload]
    refine ⟨?_, ?_, rfl, rfl, rfl⟩
    · trivial
    · exact getItem_removeItem _ _

theorem login_spec_witness :
    ((login (utf16 "ann") (utf16 "wrong") (reject401 TokenData) serveUser signedOut).1.auth
        = signedOut.auth ∧
      (login (utf16 "ann") (utf16 "wrong") (reject401 TokenData) serveUser
        signedOut).1.browser.localStorage = signedOut.browser.localStorage) ∧
    ((login (utf16 "ann") (utf16 "secret") serveToken (reject401 User) signedOut).2 = true ∧
      (login (utf16 "ann") (utf16 "secret") serveToken (reject401 User)
        signedOut).1.browser.localStorage.getItem keyToken = none ∧
      (login (utf16 "ann") (utf16 "secret") serveToken (reject401 User)
        signedOut).1.auth.isAuthenticated = false) ∧
    (login (utf16 "ann") (utf16 "secret") serveToken serveUser signedOut).1.auth.isAuthenticated
      = true :=
  ⟨(login_spec (utf16 "ann") (utf16 "wrong") (reject401 TokenData) serveUser signedOut).2.2.1
      error401 rfl,
   ⟨((login_spec (utf16 "ann") (utf16 "secret") serveToken (reject401 User) signedOut).2.2.2.2
        { access_token := utf16 "abc", token_type := utf16 "bearer" } error401 rfl
        (by decide) rfl).1,
    ((login_spec (utf16 "ann") (utf16 "secret") serveToken (reject401 User) signedOut).2.2.2.2
        { access_token := utf16 "abc", token_type := utf16 "bearer" } error401 rfl
        (by decide) rfl).2.1,
    ((login_spec (utf16 "ann") (utf16 "secret") serveToken (reject401 User) signedOut).2.2.2.2
        { access_token := utf16 "abc", token_type := utf16 "bearer" } error401 rfl
        (by decide) rfl).2.2.2.2⟩,
   by decide⟩

/-! ## Counts in chart records: the claim -/

/-- Counts in chart records, for a method that is not named `__proto__`: with pairwise
distinct method names, none of them `date`, the field of the method in the record of a date is
the count of the first item of its history on that date; and when the history of the method
repeats no date, the fields of the method over all records add up to the counts of its
history. -/
theorem formatChartData_counts (data : List MethodHistory)
    (hnames : (data.map fun x => x.method).Nodup)
    (hdate : ∀ m ∈ data, m.method ≠ keyDate)
    (m : MethodHistory) (hm : m ∈ data) (hproto : m.method ≠ keyProto) :
    (∀ (r : JSObject) (d : JSString) (before after : List HistoryItem) (item : HistoryItem),
      r ∈ formatChartData data → getField r keyDate = some (JSVal.str d) →
      m.history = before ++ item :: after → (∀ x ∈ before, x.date ≠ d) → item.date = d →
      getField r m.method = some (JSVal.num item.count)) ∧
    ((m.history.map fun item => item.date).Nodup →
      ((formatChartData data).map fun r => fieldNumber r m.method).sum
        = (m.history.map fun item => item.count).sum) := by
  constructor
  · intro r d before after item hr hd hsplit hbefore hitem
    obtain ⟨d', _, rfl⟩ := mem_formatChartData data r hr
    rw [dataPoint_date data d' hdate] at hd
    injection hd with hd
    injection hd with hd
    subst hd
    obtain ⟨pre, post, rfl, hpost⟩ := split_of_nodup_names data m hnames hm
    rw [dataPoint_field pre post m d' hproto hpost, hsplit,
      find_date_first before after item d' hbefore hitem]
  · intro hnd
    unfold formatChartData
    rw [List.map_map]
    have hfun : (fun r => fieldNumber r m.method) ∘ dataPoint data =
        fun d => match m.history.find? (fun item => decide (item.date = d)) with
          | some item => item.count
          | none => 0 := by
      funext d
      exact dataPoint_fieldNumber data m d hnames hm hproto
    rw [hfun]
    apply sum_cells (sortedDates data) (sortedDates_nodup data) m.history _ hnd
    intro item hitem
    exact (mem_sortedDates data item.date).mpr ⟨m, hm, item, hitem, rfl⟩

theorem formatChartData_counts_witness :
    ((formatChartData chartExample).map fun r => fieldNumber r (utf16 "train")).sum = 8 ∧
    ((formatChartData chartExample).map fun r => fieldNumber r (utf16 "train")).sum
      = ([(⟨utf16 "2024-03-02", 7⟩ : HistoryItem), ⟨utf16 "2024-02-28", 1⟩].map
          fun item => item.count).sum :=
  ⟨by decide,
   (formatChartData_counts chartExample (by decide) (by decide)
      ⟨utf16 "train", [⟨utf16 "2024-03-02", 7⟩, ⟨utf16 "2024-02-28", 1⟩]⟩
      (by decide) (by decide)).2 (by decide)⟩

/-- C12 fails on the code for a method named `__proto__`: the input below has a single method,
not named `date`, whose history has one item, of count 5, on the date `2024-03-01`.  The claim
gives the record of that date the field `__proto__ = 5`.  The assignment
`dataPoint['__proto__'] = 5` runs the inherited setter and creates no field: the record has the
field `date` only, and the fields of the method add up to 0, not to 5. -/
theorem formatChartData_proto_field_lost :
    formatChartData [⟨utf16 "__proto__", [⟨utf16 "2024-03-01", 5⟩]⟩]
      = [[(keyDate, JSVal.str (utf16 "2024-03-01"))]] ∧
    getField [(keyDate, JSVal.str (utf16 "2024-03-01"))] (utf16 "__proto__") = none ∧
    ((formatChartData [⟨utf16 "__proto__", [⟨utf16 "2024-03-01", 5⟩]⟩]).map
      fun r => fieldNumber r (utf16 "__proto__")).sum = 0 := by
  decide

/-! ## The model-details page: the claims -/

/-- C14 fails on the code: `handleUpdate` addresses the request by `model.name`, which the
text field has already overwritten with the edited name.  On the details page of the model
stored as `resnet`, after the name has been edited to `resnet-v2` the route parameter is still
`resnet`, and saving sends one request, `PUT /models/resnet-v2`, with the edited name in the
body; no request goes to `/models/resnet`. -/
theorem handleUpdate_addresses_edited_name :
    (onModelNameChange (utf16 "resnet-v2") detailsPage).name = utf16 "resnet" ∧
    (handleUpdate serveUpdated (onModelNameChange (utf16 "resnet-v2") detailsPage)).browser.sent.map
        (fun config => (config.method, config.url, config.data.getItem (utf16 "name")))
      = [(utf16 "put", utf16 "/models/resnet-v2", some (utf16 "resnet-v2"))] ∧
    utf16 "/models/resnet-v2" ≠ utf16 "/models/resnet" := by
  decide

/-- C18 fails on the code: after a delete that succeeds, `handleDelete` navigates to
`/models`, which no route declared in `App` matches, so `Routes` renders no view; the model
list is rendered at `/`. -/
theorem handleDelete_navigates_to_unmatched_path :
    (handleDelete serveOk detailsPage).location = utf16 "/models" ∧
    (matchRoutes appRoutes (handleDelete serveOk detailsPage).location).isNone = true ∧
    appRender true false (handleDelete serveOk detailsPage).location = Rendered.layout none ∧
    appRender true false (utf16 "/") = Rendered.layout (some Element.modelList) := by
  decide

end ByneServe
